import Mathlib

/-!
# Group controller: upgrade plan, derived resources and reconciliation

A shallow embedding of `controllers/group_controller.go`.

* Dynamic values (`interface{}` trees held by `unstructured.Unstructured`) are
  the inductive `Value`; a `map[string]interface{}` is an association list read
  with `mapGet` and written with `mapSet` / `mapDelete`.
* The accessors of `unstructured.Unstructured` used by the controller
  (`GetName`, `SetName`, `SetNamespace`, `SetGroupVersionKind`, owner
  references) follow the apimachinery helpers they are built on
  (`NestedFieldNoCopy`, `SetNestedField`, `RemoveNestedField`).
* The API server reached through `r.Client` is the state `Cluster`: the stored
  objects, a log of the calls issued so far, and the errors the server injects.
* A Go function that may return an error or panic returns an `Outcome`.
-/

namespace GroupController

/-! ## Dynamic values and maps -/

/-- Values of type `interface{}` as they occur inside an unstructured object. -/
inductive Value where
  | null
  | bool (b : Bool)
  | num (n : Int)
  | str (s : String)
  | list (xs : List Value)
  | map (kvs : List (String × Value))

/-- A Go `map[string]interface{}`, as an association list. -/
abbrev Object := List (String × Value)

/-- Map read `m[k]`: the value bound to `k`, if any. -/
def mapGet : Object → String → Option Value
  | [], _ => none
  | (k', v) :: m, k => if k' = k then some v else mapGet m k

/-- Map write `m[k] = v`. -/
def mapSet : Object → String → Value → Object
  | [], k, v => [(k, v)]
  | (k', v') :: m, k, v => if k' = k then (k, v) :: m else (k', v') :: mapSet m k v

/-- Map removal `delete(m, k)`. -/
def mapDelete : Object → String → Object
  | [], _ => []
  | (k', v') :: m, k => if k' = k then mapDelete m k else (k', v') :: mapDelete m k

/-- The helper `NestedFieldNoCopy`: walk `fields` from the root map.  The result is
`none` both when a field is missing and when an intermediate value is not a
map; every caller below treats the two alike. -/
def nestedField : Object → List String → Option Value
  | m, [] => some (.map m)
  | m, [f] => mapGet m f
  | m, f :: g :: rest =>
    match mapGet m f with
    | some (.map sub) => nestedField sub (g :: rest)
    | _ => none

/-- The helper `getNestedString`: the string at `fields`, or the empty string when the
field is missing or is not a string. -/
def nestedString (m : Object) (fields : List String) : String :=
  match nestedField m fields with
  | some (.str s) => s
  | _ => ""

/-- The helper `SetNestedField`: set the value at `fields`, creating missing
intermediate maps; `none` is the error returned when an intermediate value
exists and is not a map (nothing is written in that case). -/
def setNestedField : Object → Value → List String → Option Object
  | _, _, [] => none
  | m, v, [f] => some (mapSet m f v)
  | m, v, f :: g :: rest =>
    match mapGet m f with
    | some (.map sub) => (setNestedField sub v (g :: rest)).map (fun s => mapSet m f (.map s))
    | some _ => none
    | none => (setNestedField [] v (g :: rest)).map (fun s => mapSet m f (.map s))

/-- The helper `RemoveNestedField`: delete the field at `fields`; a no-op when an
intermediate value is missing or is not a map. -/
def removeNestedField : Object → List String → Object
  | m, [] => m
  | m, [f] => mapDelete m f
  | m, f :: g :: rest =>
    match mapGet m f with
    | some (.map sub) => mapSet m f (.map (removeNestedField sub (g :: rest)))
    | _ => m

/-! ## Unstructured objects -/

/-- The type `unstructured.Unstructured`: a root map. -/
structure Unstructured where
  object : Object

namespace Unstructured

/-- The method `u.setNestedField`: the error of `SetNestedField` is dropped, so the
object is left as it was when the write is refused. -/
def setField (u : Unstructured) (v : Value) (fields : List String) : Unstructured :=
  match setNestedField u.object v fields with
  | some m => ⟨m⟩
  | none => u

/-- The getter `GetName`. -/
def GetName (u : Unstructured) : String := nestedString u.object ["metadata", "name"]

/-- The getter `GetNamespace`. -/
def GetNamespace (u : Unstructured) : String := nestedString u.object ["metadata", "namespace"]

/-- The getter `GetKind`. -/
def GetKind (u : Unstructured) : String := nestedString u.object ["kind"]

/-- The getter `GetAPIVersion`. -/
def GetAPIVersion (u : Unstructured) : String := nestedString u.object ["apiVersion"]

/-- The setter `SetName`: an empty name removes the field. -/
def SetName (u : Unstructured) (name : String) : Unstructured :=
  if name = "" then ⟨removeNestedField u.object ["metadata", "name"]⟩
  else u.setField (.str name) ["metadata", "name"]

/-- The setter `SetNamespace`: an empty namespace removes the field. -/
def SetNamespace (u : Unstructured) (ns : String) : Unstructured :=
  if ns = "" then ⟨removeNestedField u.object ["metadata", "namespace"]⟩
  else u.setField (.str ns) ["metadata", "namespace"]

end Unstructured

/-- A `schema.GroupVersionKind`. -/
structure GroupVersionKind where
  group : String
  version : String
  kind : String
  deriving DecidableEq

/-- The string form of a group/version: `version` alone for the core group. -/
def GroupVersionKind.apiVersion (gvk : GroupVersionKind) : String :=
  if gvk.group = "" then gvk.version else gvk.group ++ "/" ++ gvk.version

/-- The setter `SetGroupVersionKind`: writes `apiVersion` and `kind`. -/
def Unstructured.SetGroupVersionKind (u : Unstructured) (gvk : GroupVersionKind) : Unstructured :=
  (u.setField (.str gvk.apiVersion) ["apiVersion"]).setField (.str gvk.kind) ["kind"]

/-! ## The Group resource -/

/-- Modelled from the spec: the declaration of `ranv1alpha1.GroupPolicyTemplate` is not among
the sources; the controller reads its `ObjectDefinition.Raw` only (the spec's
PolicyTemplate with its raw definition).  The raw bytes of `ObjectDefinition`
are represented by what `json.Unmarshal` into an `Unstructured` makes of them:
`none` when it returns an error, the decoded root map otherwise (it returns an
error in particular when the bytes are not a JSON object with a `kind`). -/
structure GroupPolicyTemplate where
  ObjectDefinition : Option Object

/-- Modelled from the spec: the declaration of `ranv1alpha1.Group` is not among the sources; these
are the fields the controller reads (the spec's RolloutRequest: name and
namespace, ordered sites, strategy, ordered policy templates), plus the UID
that an owner reference carries. -/
structure Group where
  Name : String
  Namespace : String
  UID : String
  Sites : List String
  UpgradeStrategyType : String
  GroupPolicyTemplates : List GroupPolicyTemplate

/-- Decimal rendering of a machine integer, `strconv.Itoa`. -/
def Itoa : Int → String
  | .ofNat n => Nat.repr n
  | .negSucc n => "-" ++ Nat.repr (n + 1)

/-! ## Derived resources -/

/-- The name `newPlacementRule` gives its object, also written into `placementRef` by
`newPlacementBinding`. -/
def placementRuleName (group : Group) (batch : Int) : String :=
  group.Name ++ "-" ++ "batch" ++ "-" ++ Itoa batch ++ "-" ++ "placement-rule"

/-- The name `newPlacementBinding` gives its object. -/
def placementBindingName (group : Group) (batch : Int) : String :=
  group.Name ++ "-" ++ "batch" ++ "-" ++ Itoa batch ++ "-" ++ "placement-binding"

/-- The name `newPolicy` builds and hands to `SetName`, also written into `subjects` by
`newPlacementBinding`; `templateName` is what `GetName` reads off the template. -/
def policyName (group : Group) (batch : Int) (templateName : String) : String :=
  group.Name ++ "-" ++ "batch" ++ "-" ++ Itoa batch ++ "-" ++ templateName ++ "-" ++ "policy"

/-- The kind of a PlacementRule. -/
def placementRuleGVK : GroupVersionKind :=
  { group := "apps.open-cluster-management.io", kind := "PlacementRule", version := "v1" }

/-- The kind of a PlacementBinding. -/
def placementBindingGVK : GroupVersionKind :=
  { group := "policy.open-cluster-management.io", kind := "PlacementBinding", version := "v1" }

/-- The kind of a Policy. -/
def policyGVK : GroupVersionKind :=
  { group := "policy.open-cluster-management.io", kind := "Policy", version := "v1" }

/-- The method `newPlacementRule`. -/
def newPlacementRule (group : Group) (batch : Int) (sites : List String) : Unstructured :=
  let u : Unstructured := ⟨[
    ("metadata", .map [
      ("name", .str (placementRuleName group batch)),
      ("namespace", .str group.Namespace),
      ("labels", .map [("app", .str "cluster-group-lcm")])]),
    ("spec", .map [
      ("clusterConditions", .list [
        .map [("type", .str "ManagedClusterConditionAvailable"), ("status", .str "True")]])])]⟩
  let clusters : List Value := sites.map (fun site => .map [("name", .str site)])
  let u : Unstructured :=
    match mapGet u.object "spec" with
    | some (.map specObject) => ⟨mapSet u.object "spec" (.map (mapSet specObject "clusters" (.list clusters)))⟩
    | _ => u
  u.SetGroupVersionKind placementRuleGVK

/-- The method `newPlacementBinding`; `none` is the nil pointer returned when the template
does not unmarshal. -/
def newPlacementBinding (group : Group) (batch : Int) (groupPolicyTemplate : GroupPolicyTemplate) :
    Option Unstructured :=
  match groupPolicyTemplate.ObjectDefinition with
  | none => none
  | some obj =>
    let policyUnstructured : Unstructured := ⟨obj⟩
    let u : Unstructured := ⟨[
      ("metadata", .map [
        ("name", .str (placementBindingName group batch)),
        ("namespace", .str group.Namespace),
        ("labels", .map [("app", .str "cluster-group-lcm")])]),
      ("placementRef", .map [
        ("name", .str (placementRuleName group batch)),
        ("kind", .str "PlacementRule"),
        ("apiGroup", .str "apps.open-cluster-management.io")]),
      ("subjects", .list [
        .map [
          ("name", .str (policyName group batch policyUnstructured.GetName)),
          ("kind", .str "Policy"),
          ("apiGroup", .str "policy.open-cluster-management.io")]])]⟩
    some (u.SetGroupVersionKind placementBindingGVK)

/-- The errors the controller can see. -/
inductive Err where
  | notFound
  | alreadyExists
  | ownerNamespace
  | alreadyOwned
  | server (code : Nat)
  deriving DecidableEq

/-- The test `errors.IsNotFound`. -/
def Err.IsNotFound : Err → Bool
  | .notFound => true
  | _ => false

/-- What a Go call can do: return normally (with a value), return an error, or panic. -/
inductive Outcome (α : Type) where
  | ok (a : α)
  | error (e : Err)
  | panic

/-- The method `newPolicy`.  `ok none` is the nil pointer returned when the template does
not unmarshal; `panic` is the failed type assertion on `spec`. -/
def newPolicy (group : Group) (batch : Int) (groupPolicyTemplate : GroupPolicyTemplate) :
    Outcome (Option Unstructured) :=
  match groupPolicyTemplate.ObjectDefinition with
  | none => .ok none
  | some obj =>
    let u : Unstructured := ⟨obj⟩
    let u := u.SetName (policyName group batch u.GetName)
    let u := u.SetNamespace group.Namespace
    match mapGet u.object "spec" with
    | some (.map specObject) =>
      .ok (some ⟨mapSet u.object "spec" (.map (mapSet specObject "remediationAction" (.str "inform")))⟩)
    | _ => .panic


/-! ## Owner references -/

/-- The type `metav1.OwnerReference`. -/
structure OwnerReference where
  APIVersion : String
  Kind : String
  Name : String
  UID : String
  Controller : Option Bool
  BlockOwnerDeletion : Option Bool
  deriving DecidableEq

/-- The helper `extractOwnerReference`: read an owner reference back from its map form. -/
def extractOwnerReference (v : Object) : OwnerReference :=
  { APIVersion := nestedString v ["apiVersion"]
    Kind := nestedString v ["kind"]
    Name := nestedString v ["name"]
    UID := nestedString v ["uid"]
    Controller := match mapGet v "controller" with
      | some (.bool b) => some b
      | _ => none
    BlockOwnerDeletion := match mapGet v "blockOwnerDeletion" with
      | some (.bool b) => some b
      | _ => none }

/-- The map form of an owner reference (the two pointer fields are omitted when nil). -/
def ownerReferenceValue (r : OwnerReference) : Value :=
  .map ([("apiVersion", .str r.APIVersion), ("kind", .str r.Kind), ("name", .str r.Name),
      ("uid", .str r.UID)]
    ++ (match r.Controller with
        | some b => [("controller", Value.bool b)]
        | none => [])
    ++ (match r.BlockOwnerDeletion with
        | some b => [("blockOwnerDeletion", Value.bool b)]
        | none => []))

/-- The entries of a `metadata.ownerReferences` list, or `none` when one is not a map. -/
def extractOwnerReferences : List Value → Option (List OwnerReference)
  | [] => some []
  | .map o :: rest => (extractOwnerReferences rest).map (fun rs => extractOwnerReference o :: rs)
  | _ :: _ => none

/-- The getter `GetOwnerReferences`: empty unless `metadata.ownerReferences` is a list of maps. -/
def Unstructured.GetOwnerReferences (u : Unstructured) : List OwnerReference :=
  match nestedField u.object ["metadata", "ownerReferences"] with
  | some (.list xs) => (extractOwnerReferences xs).getD []
  | _ => []

/-- The setter `SetOwnerReferences` for a non-nil slice. -/
def Unstructured.SetOwnerReferences (u : Unstructured) (refs : List OwnerReference) : Unstructured :=
  u.setField (.list (refs.map ownerReferenceValue)) ["metadata", "ownerReferences"]

/-- The helper `metav1.GetControllerOf`: the first owner reference marked as controller. -/
def GetControllerOf (u : Unstructured) : Option OwnerReference :=
  u.GetOwnerReferences.find? (fun r => r.Controller = some true)

/-- The group part of an `apiVersion` string (`schema.ParseGroupVersion`); `none` when the
string has more than one slash. -/
def parseGroup (gv : String) : Option String :=
  match gv.data.count '/' with
  | 0 => some ""
  | 1 => some (String.mk (gv.data.takeWhile (fun ch => ch ≠ '/')))
  | _ => none

/-- The helper `referSameObject`: same API group, kind and name. -/
def referSameObject (a b : OwnerReference) : Bool :=
  match parseGroup a.APIVersion, parseGroup b.APIVersion with
  | some ga, some gb => ga = gb ∧ a.Kind = b.Kind ∧ a.Name = b.Name
  | _, _ => false

/-- The helper `upsertOwnerRef`: replace the reference to the same object, or append. -/
def upsertOwnerRef (ref : OwnerReference) : List OwnerReference → List OwnerReference
  | [] => [ref]
  | r :: rs => if referSameObject r ref then ref :: rs else r :: upsertOwnerRef ref rs

/-- The kind under which `Group` is registered in the scheme: API group `ran.openshift.io` (the
RBAC markers of the controller), version of the package `api/v1alpha1`. -/
def groupGVK : GroupVersionKind :=
  { group := "ran.openshift.io", version := "v1alpha1", kind := "Group" }

/-- The controller reference to a Group built by `SetControllerReference`. -/
def controllerRef (group : Group) : OwnerReference :=
  { APIVersion := groupGVK.apiVersion
    Kind := groupGVK.kind
    Name := group.Name
    UID := group.UID
    BlockOwnerDeletion := some true
    Controller := some true }

/-- The library call `controllerutil.SetControllerReference(group, controlled, r.Scheme)`: the
owner is validated (a namespaced owner needs a controlled object in its own
namespace), an object controlled by something else is refused, and otherwise
the controller reference is upserted into `metadata.ownerReferences`. -/
def SetControllerReference (group : Group) (controlled : Unstructured) : Except Err Unstructured :=
  if group.Namespace ≠ "" ∧ (controlled.GetNamespace = "" ∨ group.Namespace ≠ controlled.GetNamespace) then
    .error .ownerNamespace
  else
    let ref := controllerRef group
    match GetControllerOf controlled with
    | some existing =>
      if referSameObject existing ref then
        .ok (controlled.SetOwnerReferences (upsertOwnerRef ref controlled.GetOwnerReferences))
      else .error .alreadyOwned
    | none => .ok (controlled.SetOwnerReferences (upsertOwnerRef ref controlled.GetOwnerReferences))

/-! ## The API server seen through the client -/

/-- What identifies a stored object: its kind, namespace and name. -/
structure ResourceKey where
  APIVersion : String
  Kind : String
  Namespace : String
  Name : String
  deriving DecidableEq

/-- The key under which the server stores an object. -/
def Unstructured.key (u : Unstructured) : ResourceKey :=
  { APIVersion := u.GetAPIVersion, Kind := u.GetKind, Namespace := u.GetNamespace, Name := u.GetName }

/-- The key the controller looks a derived resource up with. -/
def lookupKey (gvk : GroupVersionKind) (ns name : String) : ResourceKey :=
  { APIVersion := gvk.apiVersion, Kind := gvk.kind, Namespace := ns, Name := name }

/-- A call issued on a derived resource. -/
inductive Call where
  | get (k : ResourceKey)
  | create (u : Unstructured)

/-- The request of a reconciliation: the namespaced name of a Group. -/
structure Request where
  Namespace : String
  Name : String
  deriving DecidableEq

/-- The API server: the stored derived objects, the calls issued on them so far, the
error (if any) it injects into a get or a create given the calls so far, and
what fetching a Group returns. -/
structure Cluster where
  objects : List Unstructured
  calls : List Call
  getFault : List Call → ResourceKey → Option Err
  createFault : List Call → Unstructured → Option Err
  fetchGroup : Request → Except Err Group

/-- Whether an object is stored under a key. -/
def Cluster.holds (c : Cluster) (k : ResourceKey) : Bool :=
  c.objects.any (fun o => o.key = k)

/-- The server after one more call has been logged. -/
def Cluster.logged (c : Cluster) (call : Call) : Cluster :=
  { c with calls := c.calls ++ [call] }

/-- The error of a get: the injected one if any, else not-found unless the key is held. -/
def Cluster.getError (c : Cluster) (k : ResourceKey) : Option Err :=
  match c.getFault c.calls k with
  | some e => some e
  | none => if c.holds k then none else some .notFound

/-- The error of a create: the injected one if any, else already-exists when the key is held. -/
def Cluster.createError (c : Cluster) (u : Unstructured) : Option Err :=
  match c.createFault c.calls u with
  | some e => some e
  | none => if c.holds u.key then some .alreadyExists else none

/-- The client call `r.Client.Get` on a derived resource: the error returned (nil when found)
and the server afterwards. -/
def Cluster.Get (c : Cluster) (k : ResourceKey) : Option Err × Cluster :=
  (c.getError k, c.logged (.get k))

/-- The client call `r.Client.Create`: the error returned (nil when stored) and the server
afterwards. -/
def Cluster.Create (c : Cluster) (u : Unstructured) : Option Err × Cluster :=
  match c.createError u with
  | some e => (some e, c.logged (.create u))
  | none => (none, { c.logged (.create u) with objects := c.objects ++ [u] })

/-! ## Reconciliation -/

/-- The body shared by `ensurePlacementRule`, `ensurePolicy` and `ensurePlacementBinding` once the
desired object is built: set the controller reference, get by
(kind, namespace of the Group, name of the object), create when not found. -/
def ensureObject (group : Group) (gvk : GroupVersionKind) (obj : Unstructured) (c : Cluster) :
    Outcome Unit × Cluster :=
  match SetControllerReference group obj with
  | .error e => (.error e, c)
  | .ok obj =>
    match c.Get (lookupKey gvk group.Namespace obj.GetName) with
    | (none, c) => (.ok (), c)
    | (some err, c) =>
      if err.IsNotFound then
        match c.Create obj with
        | (some err, c) => (.error err, c)
        | (none, c) => (.ok (), c)
      else (.error err, c)

/-- The method `ensurePlacementRule`. -/
def ensurePlacementRule (group : Group) (batch : Int) (sites : List String) (c : Cluster) :
    Outcome Unit × Cluster :=
  ensureObject group placementRuleGVK (newPlacementRule group batch sites) c

/-- The method `ensurePlacementBinding`; a nil binding makes `SetControllerReference` dereference a
nil pointer. -/
def ensurePlacementBinding (group : Group) (batch : Int) (groupPolicyTemplate : GroupPolicyTemplate)
    (c : Cluster) : Outcome Unit × Cluster :=
  match newPlacementBinding group batch groupPolicyTemplate with
  | none => (.panic, c)
  | some pb => ensureObject group placementBindingGVK pb c

/-- The method `ensurePolicy`; a nil policy makes `SetControllerReference` dereference a nil
pointer. -/
def ensurePolicy (group : Group) (batch : Int) (groupPolicyTemplate : GroupPolicyTemplate)
    (c : Cluster) : Outcome Unit × Cluster :=
  match newPolicy group batch groupPolicyTemplate with
  | .panic => (.panic, c)
  | .error e => (.error e, c)
  | .ok none => (.panic, c)
  | .ok (some pol) => ensureObject group policyGVK pol c

/-- The upgrade plan built at the start of `Reconcile`. -/
def upgradePlan (group : Group) : List (List String) :=
  if group.UpgradeStrategyType = "Parallel" then
    [] ++ [group.Sites]
  else
    group.Sites.foldl (fun plan site => plan ++ [[site]]) []

/-- The inner loop of `Reconcile` over the policy templates of one batch. -/
def reconcileTemplates (group : Group) (batch : Int) :
    List GroupPolicyTemplate → Cluster → Outcome Unit × Cluster
  | [], c => (.ok (), c)
  | groupPolicyTemplate :: rest, c =>
    match ensurePolicy group batch groupPolicyTemplate c with
    | (.ok _, c) =>
      match ensurePlacementBinding group batch groupPolicyTemplate c with
      | (.ok _, c) => reconcileTemplates group batch rest c
      | r => r
    | r => r

/-- The pairs `(i + 1, upgradeBatch)` the loop `for i, upgradeBatch := range upgradePlan` hands
to the ensure operations, in loop order. -/
def indexedPlan (group : Group) : List (Int × List String) :=
  (upgradePlan group).enum.map (fun p => ((p.1 : Int) + 1, p.2))

/-- One iteration of the outer loop of `Reconcile`: the PlacementRule of the batch, then the
Policy and the PlacementBinding of every template. -/
def reconcileBatch (group : Group) (batch : Int) (upgradeBatch : List String) (c : Cluster) :
    Outcome Unit × Cluster :=
  match ensurePlacementRule group batch upgradeBatch c with
  | (.ok _, c) => reconcileTemplates group batch group.GroupPolicyTemplates c
  | r => r

/-- The outer loop of `Reconcile`; an error or a panic ends it. -/
def reconcileBatches (group : Group) : List (Int × List String) → Cluster → Outcome Unit × Cluster
  | [], c => (.ok (), c)
  | (batch, upgradeBatch) :: rest, c =>
    match reconcileBatch group batch upgradeBatch c with
    | (.ok _, c) => reconcileBatches group rest c
    | r => r

/-- The method `Reconcile`: fetch the Group (not found is success), plan, ensure. -/
def Reconcile (c : Cluster) (req : Request) : Outcome Unit × Cluster :=
  match c.fetchGroup req with
  | .error err => if err.IsNotFound then (.ok (), c) else (.error err, c)
  | .ok group => reconcileBatches group (indexedPlan group) c

/-- The name of the object `newPolicy` returns, when it returns one. -/
def policyInstanceName (group : Group) (batch : Int) (groupPolicyTemplate : GroupPolicyTemplate) :
    Option String :=
  match newPolicy group batch groupPolicyTemplate with
  | .ok (some u) => some u.GetName
  | _ => none

/-- The `(kind, name)` pairs listed under `subjects` of a binding, in order. -/
def subjectRefs (u : Unstructured) : List (String × String) :=
  match mapGet u.object "subjects" with
  | some (.list xs) => xs.map (fun v =>
      match v with
      | .map m => (nestedString m ["kind"], nestedString m ["name"])
      | _ => ("", ""))
  | _ => []

/-- The `(kind, name)` pair under `placementRef` of a binding. -/
def placementRef (u : Unstructured) : String × String :=
  (nestedString u.object ["placementRef", "kind"], nestedString u.object ["placementRef", "name"])

/-- Whether `metadata` is absent or a map, the shapes in which `SetName` can write. -/
def metadataWritable (o : Object) : Bool :=
  match mapGet o "metadata" with
  | none => true
  | some (.map _) => true
  | some _ => false

/-- Whether `spec` is a map, the shape the type assertion of `newPolicy` accepts. -/
def specIsMap (o : Object) : Bool :=
  match mapGet o "spec" with
  | some (.map _) => true
  | _ => false

/-- Whether an outcome is a normal return without error. -/
def Outcome.isOk {α : Type} : Outcome α → Bool
  | .ok _ => true
  | _ => false

/-- The error an outcome carries, if it is an error return. -/
def Outcome.errorOf {α : Type} : Outcome α → Option Err
  | .error e => some e
  | _ => none

/-- Whether an outcome is a panic. -/
def Outcome.isPanic {α : Type} : Outcome α → Bool
  | .panic => true
  | _ => false

/-- Whether a call is a create. -/
def Call.isCreate : Call → Bool
  | .create _ => true
  | .get _ => false

/-- The number of create calls in the log of the server. -/
def Cluster.creates (c : Cluster) : Nat :=
  (c.calls.filter Call.isCreate).length

/-- A server that injects no error: a get fails only with not-found, for an object it does not
hold, and a create fails only for a key already held. -/
def Cluster.FaultFree (c : Cluster) : Prop :=
  (∀ calls k, c.getFault calls k = none) ∧ (∀ calls u, c.createFault calls u = none)

/-- Two server states with the same injected errors and the same Group behind them. -/
def Cluster.SameServer (c c' : Cluster) : Prop :=
  c'.getFault = c.getFault ∧ c'.createFault = c.createFault ∧ c'.fetchGroup = c.fetchGroup

/-! ## The pass as a sequence of ensure steps -/

/-- One ensure call of a reconciliation pass. -/
inductive Step where
  | rule (batch : Int) (sites : List String)
  | policy (batch : Int) (groupPolicyTemplate : GroupPolicyTemplate)
  | binding (batch : Int) (groupPolicyTemplate : GroupPolicyTemplate)

/-- The ensure call a step stands for. -/
def runStep (group : Group) : Step → Cluster → Outcome Unit × Cluster
  | .rule batch sites, c => ensurePlacementRule group batch sites c
  | .policy batch t, c => ensurePolicy group batch t c
  | .binding batch t, c => ensurePlacementBinding group batch t c

/-- Run ensure calls in order; the first error or panic ends the run. -/
def runSteps (group : Group) : List Step → Cluster → Outcome Unit × Cluster
  | [], c => (.ok (), c)
  | s :: rest, c =>
    match runStep group s c with
    | (.ok _, c) => runSteps group rest c
    | r => r

/-- The ensure calls of the inner loop for one batch index. -/
def templateSteps (batch : Int) : List GroupPolicyTemplate → List Step
  | [] => []
  | t :: rest => .policy batch t :: .binding batch t :: templateSteps batch rest

/-- The ensure calls of the outer loop over indexed batches. -/
def planSteps (templates : List GroupPolicyTemplate) : List (Int × List String) → List Step
  | [] => []
  | (batch, sites) :: rest =>
    (.rule batch sites :: templateSteps batch templates) ++ planSteps templates rest

/-- The kind a step looks its object up under. -/
def Step.gvk : Step → GroupVersionKind
  | .rule _ _ => placementRuleGVK
  | .policy _ _ => policyGVK
  | .binding _ _ => placementBindingGVK

/-- The desired object a step builds; `none` when building it panics or yields a nil pointer. -/
def Step.object (group : Group) : Step → Option Unstructured
  | .rule batch sites => some (newPlacementRule group batch sites)
  | .policy batch t =>
    match newPolicy group batch t with
    | .ok (some pol) => some pol
    | _ => none
  | .binding batch t => newPlacementBinding group batch t

/-- The key a step looks its object up with. -/
def Step.key (group : Group) (s : Step) : ResourceKey :=
  lookupKey s.gvk group.Namespace
    (match s.object group with
     | some obj => obj.GetName
     | none => "")

/-- A step whose object is built, accepts the controller reference, and is stored by the server
under the very key the step looks it up with. -/
def Step.Good (group : Group) (s : Step) : Prop :=
  ∃ obj obj1 : Unstructured, s.object group = some obj ∧
    SetControllerReference group obj = .ok obj1 ∧ obj1.key = s.key group

/-- A template `Reconcile` can materialise again and again: it unmarshals to a Policy of the
expected API version whose `spec` is a map, whose `metadata` is absent or a
map, and which names no controller of its own. -/
def wellFormedTemplate (t : GroupPolicyTemplate) : Bool :=
  match t.ObjectDefinition with
  | none => false
  | some o =>
    metadataWritable o && specIsMap o &&
    decide (Unstructured.GetKind ⟨o⟩ = policyGVK.kind) &&
    decide (Unstructured.GetAPIVersion ⟨o⟩ = policyGVK.apiVersion) &&
    (GetControllerOf ⟨o⟩).isNone

/-- The object name `GetName` reads off a template; empty when the template does not unmarshal. -/
def templateName (t : GroupPolicyTemplate) : String :=
  match t.ObjectDefinition with
  | some o => Unstructured.GetName ⟨o⟩
  | none => ""

/-- The object a step hands to the server: the desired object once it has accepted the controller
reference; `none` when there is no desired object or the reference is refused. -/
def Step.accepted (group : Group) (s : Step) : Option Unstructured :=
  match s.object group with
  | some obj =>
    match SetControllerReference group obj with
    | .ok obj1 => some obj1
    | .error _ => none
  | none => none

/-- What a server without injected errors stores after one ensure step: nothing new when the key
of the step is already held, else the accepted object at the end. -/
def settleStep (group : Group) (objs : List Unstructured) (s : Step) : List Unstructured :=
  if objs.any (fun o => o.key = s.key group) then objs
  else
    match s.accepted group with
    | some u => objs ++ [u]
    | none => objs

/-- What a server without injected errors stores after a run of ensure steps. -/
def settle (group : Group) (steps : List Step) (objs : List Unstructured) : List Unstructured :=
  steps.foldl (settleStep group) objs

/-- The key of the PlacementBinding of a batch. -/
def bindingKey (group : Group) (batch : Int) : ResourceKey :=
  lookupKey placementBindingGVK group.Namespace (placementBindingName group batch)

/-- The key of the Policy of a batch for a template object name. -/
def policyKey (group : Group) (batch : Int) (name : String) : ResourceKey :=
  lookupKey policyGVK group.Namespace (policyName group batch name)

/-- No two stored objects share a key. -/
def UniqueKeys (objs : List Unstructured) : Prop :=
  (objs.map Unstructured.key).Nodup

/-- Every stored PlacementBinding is the binding of a planned batch, and its subjects are the one
Policy built in that batch for the template object name `first`. -/
def BindingsNameFirst (group : Group) (plan : List (Int × List String)) (first : String)
    (objs : List Unstructured) : Prop :=
  ∀ u ∈ objs, u.GetKind = placementBindingGVK.kind →
    ∃ b sites, (b, sites) ∈ plan ∧ u.key = bindingKey group b ∧
      subjectRefs u = [("Policy", policyName group b first)]

/-! ## Sample inputs -/

/-- A well-formed Policy object with the given name, asking for enforcement. -/
def sampleObject (name : String) : Object :=
  [("apiVersion", .str "policy.open-cluster-management.io/v1"), ("kind", .str "Policy"),
    ("metadata", .map [("name", .str name)]),
    ("spec", .map [("remediationAction", .str "enforce"), ("disabled", .bool false)])]

/-- The template whose raw definition unmarshals to `sampleObject name`. -/
def sampleTemplate (name : String) : GroupPolicyTemplate :=
  ⟨some (sampleObject name)⟩

/-- A template that unmarshals but whose `metadata` is a string instead of a map. -/
def sampleBadMetadataTemplate : GroupPolicyTemplate :=
  ⟨some [("apiVersion", .str "policy.open-cluster-management.io/v1"), ("kind", .str "Policy"),
    ("metadata", .str "pt1"), ("spec", .map [("remediationAction", .str "enforce")])]⟩

/-- A Policy object that carries no name: `metadata` holds a label only. -/
def sampleNamelessObject : Object :=
  [("apiVersion", .str "policy.open-cluster-management.io/v1"), ("kind", .str "Policy"),
    ("metadata", .map [("labels", .map [("tier", .str "ran")])]),
    ("spec", .map [("remediationAction", .str "enforce")])]

/-- The template whose raw definition unmarshals to `sampleNamelessObject`. -/
def sampleNamelessTemplate : GroupPolicyTemplate :=
  ⟨some sampleNamelessObject⟩

/-- A Policy object named `pt1` that has no `spec`. -/
def sampleNoSpecObject : Object :=
  [("apiVersion", .str "policy.open-cluster-management.io/v1"), ("kind", .str "Policy"),
    ("metadata", .map [("name", .str "pt1")])]

/-- The template whose raw definition unmarshals to `sampleNoSpecObject`. -/
def sampleNoSpecTemplate : GroupPolicyTemplate :=
  ⟨some sampleNoSpecObject⟩

/-- A Policy template named `pt1` whose raw definition names a ConfigMap as its controller. -/
def sampleOwnedTemplate : GroupPolicyTemplate :=
  ⟨some [("apiVersion", .str "policy.open-cluster-management.io/v1"), ("kind", .str "Policy"),
    ("metadata", .map [("name", .str "pt1"),
      ("ownerReferences", .list [.map [("apiVersion", .str "v1"), ("kind", .str "ConfigMap"),
        ("name", .str "other"), ("uid", .str "uid-9"), ("controller", .bool true)]])]),
    ("spec", .map [("remediationAction", .str "enforce")])]⟩

/-- A stored Policy of the given name in namespace `ns` whose body is not what the controller
would build: it enforces, and nothing owns it. -/
def sampleStoredPolicy (name : String) : Unstructured :=
  ⟨[("apiVersion", .str "policy.open-cluster-management.io/v1"), ("kind", .str "Policy"),
    ("metadata", .map [("name", .str name), ("namespace", .str "ns")]),
    ("spec", .map [("remediationAction", .str "enforce")])]⟩

/-- A Group named `grp` in namespace `ns` with the given sites, strategy and templates. -/
def sampleGroup (sites : List String) (strategy : String) (templates : List GroupPolicyTemplate) :
    Group :=
  ⟨"grp", "ns", "uid-1", sites, strategy, templates⟩

/-- A server that holds the given objects, injects no error and serves the given Group under its
namespaced name. -/
def sampleCluster (objects : List Unstructured) (group : Group) : Cluster :=
  ⟨objects, [], fun _ _ => none, fun _ _ => none,
    fun req => if req = ⟨group.Namespace, group.Name⟩ then .ok group else .error .notFound⟩

/-- A server like `sampleCluster` that answers every get on the given name with the given error. -/
def sampleFaultyCluster (objects : List Unstructured) (group : Group) (name : String) (e : Err) :
    Cluster :=
  ⟨objects, [], fun _ k => if k.Name = name then some e else none, fun _ _ => none,
    fun req => if req = ⟨group.Namespace, group.Name⟩ then .ok group else .error .notFound⟩

/-- The number a list of decimal digit characters stands for (most significant first). -/
def ofDigitChars (cs : List Char) : Nat :=
  cs.foldl (fun acc ch => 10 * acc + (ch.toNat - 48)) 0


/-! ## Lemmas on decimal rendering -/

theorem digitChar_spec (n : Nat) (h : n < 10) :
    Nat.digitChar n ≠ '-' ∧ (Nat.digitChar n).toNat - 48 = n := by
  interval_cases n <;> decide

theorem ofDigitChars_append_singleton (cs : List Char) (ch : Char) :
    ofDigitChars (cs ++ [ch]) = 10 * ofDigitChars cs + (ch.toNat - 48) := by
  simp [ofDigitChars, List.foldl_append]

theorem toDigitsCore_spec : ∀ (fuel n : Nat) (ds : List Char), n < fuel →
    ∃ pre : List Char, Nat.toDigitsCore 10 fuel n ds = pre ++ ds ∧ '-' ∉ pre ∧
      ofDigitChars pre = n := by
  intro fuel
  induction fuel with
  | zero => intro n ds h; omega
  | succ fuel ih =>
    intro n ds h
    have hd := digitChar_spec (n % 10) (Nat.mod_lt _ (by decide))
    simp only [Nat.toDigitsCore]
    by_cases h0 : n / 10 = 0
    · refine ⟨[Nat.digitChar (n % 10)], by simp [h0], ?_, ?_⟩
      · simpa using fun h => hd.1 h.symm
      · simp only [ofDigitChars, List.foldl, hd.2]
        omega
    · have hlt : n / 10 < fuel := by omega
      obtain ⟨pre, hpre, hno, hval⟩ := ih (n / 10) (Nat.digitChar (n % 10) :: ds) hlt
      refine ⟨pre ++ [Nat.digitChar (n % 10)], by simp [h0, hpre], ?_, ?_⟩
      · simp only [List.mem_append, List.mem_singleton, not_or]
        exact ⟨hno, fun h => hd.1 h.symm⟩
      · rw [ofDigitChars_append_singleton, hval, hd.2]
        omega

theorem toDigits_no_dash (n : Nat) : '-' ∉ Nat.toDigits 10 n := by
  obtain ⟨pre, hpre, hno, _⟩ := toDigitsCore_spec (n + 1) n [] (Nat.lt_succ_self n)
  simpa [Nat.toDigits, hpre] using hno

theorem toDigits_injective {n m : Nat} (h : Nat.toDigits 10 n = Nat.toDigits 10 m) : n = m := by
  obtain ⟨p, hp, _, hv⟩ := toDigitsCore_spec (n + 1) n [] (Nat.lt_succ_self n)
  obtain ⟨q, hq, _, hw⟩ := toDigitsCore_spec (m + 1) m [] (Nat.lt_succ_self m)
  simp only [Nat.toDigits, hp, hq, List.append_nil] at h
  rw [← hv, ← hw, h]

/-- For a batch index of at least one, `Itoa` is the decimal rendering of a natural number. -/
theorem Itoa_data_of_pos (b : Int) (h : 1 ≤ b) : (Itoa b).data = Nat.toDigits 10 b.toNat := by
  obtain ⟨n, rfl⟩ := Int.eq_ofNat_of_zero_le (by omega : 0 ≤ b)
  simp [Itoa, Nat.repr, List.asString]

theorem split_at_first {α : Type} (x : α) : ∀ (a b r s : List α), x ∉ a → x ∉ b →
    a ++ x :: r = b ++ x :: s → a = b ∧ r = s := by
  intro a
  induction a with
  | nil =>
    intro b r s _ hb h
    cases b with
    | nil => simpa using h
    | cons y b =>
      simp only [List.nil_append, List.cons_append, List.cons.injEq] at h
      exact absurd (by simp [h.1]) hb
  | cons y a ih =>
    intro b r s ha hb h
    cases b with
    | nil =>
      simp only [List.nil_append, List.cons_append, List.cons.injEq] at h
      exact absurd (by simp [h.1]) ha
    | cons z b =>
      simp only [List.cons_append, List.cons.injEq] at h
      have ha2 : x ∉ a := fun hx => ha (List.mem_cons_of_mem _ hx)
      have hb2 : x ∉ b := fun hx => hb (List.mem_cons_of_mem _ hx)
      obtain ⟨e1, e2⟩ := ih b r s ha2 hb2 h.2
      exact ⟨by rw [h.1, e1], e2⟩

theorem split_at_last {α : Type} (x : α) (a b r s : List α) (hr : x ∉ r) (hs : x ∉ s)
    (h : a ++ x :: r = b ++ x :: s) : a = b ∧ r = s := by
  have h2 := congrArg List.reverse h
  simp only [List.reverse_append, List.reverse_cons, List.append_assoc, List.singleton_append] at h2
  obtain ⟨e1, e2⟩ := split_at_first x r.reverse s.reverse a.reverse b.reverse
    (by simpa using hr) (by simpa using hs) h2
  exact ⟨List.reverse_injective e2, List.reverse_injective e1⟩

theorem batch_base_inj (g1 g2 : List Char) (n1 n2 : Nat)
    (h : g1 ++ ("-batch".data ++ '-' :: Nat.toDigits 10 n1)
       = g2 ++ ("-batch".data ++ '-' :: Nat.toDigits 10 n2)) : g1 = g2 ∧ n1 = n2 := by
  rw [← List.append_assoc, ← List.append_assoc] at h
  obtain ⟨e1, e2⟩ := split_at_last '-' _ _ _ _ (toDigits_no_dash n1) (toDigits_no_dash n2) h
  exact ⟨(List.append_left_inj _).1 e1, toDigits_injective e2⟩

theorem placementRuleName_data (group : Group) (b : Int) :
    (placementRuleName group b).data
      = group.Name.data ++ ("-batch".data ++ '-' :: (Itoa b).data) ++ "-placement-rule".data := by
  simp [placementRuleName, String.data_append, List.append_assoc]

theorem placementBindingName_data (group : Group) (b : Int) :
    (placementBindingName group b).data
      = group.Name.data ++ ("-batch".data ++ '-' :: (Itoa b).data) ++ "-placement-binding".data := by
  simp [placementBindingName, String.data_append, List.append_assoc]

theorem policyName_data (group : Group) (b : Int) (t : String) :
    (policyName group b t).data
      = group.Name.data ++ ("-batch".data ++ '-' :: (Itoa b).data) ++ '-' :: t.data ++ "-policy".data := by
  simp [policyName, String.data_append, List.append_assoc]

theorem newPlacementRule_GetName (group : Group) (b : Int) (sites : List String) :
    (newPlacementRule group b sites).GetName = placementRuleName group b := by
  rfl

theorem newPlacementBinding_GetName (group : Group) (b : Int) (o : Object) :
    (newPlacementBinding group b ⟨some o⟩).map Unstructured.GetName = some (placementBindingName group b) := by
  rfl

theorem placementRuleName_inj (g1 g2 : Group) (b1 b2 : Int) (h1 : 1 ≤ b1) (h2 : 1 ≤ b2)
    (h : placementRuleName g1 b1 = placementRuleName g2 b2) : g1.Name = g2.Name ∧ b1 = b2 := by
  have hd := congrArg String.data h
  rw [placementRuleName_data, placementRuleName_data, List.append_left_inj,
    Itoa_data_of_pos b1 h1, Itoa_data_of_pos b2 h2] at hd
  obtain ⟨e1, e2⟩ := batch_base_inj _ _ _ _ hd
  exact ⟨String.ext e1, by omega⟩

theorem placementBindingName_inj (g1 g2 : Group) (b1 b2 : Int) (h1 : 1 ≤ b1) (h2 : 1 ≤ b2)
    (h : placementBindingName g1 b1 = placementBindingName g2 b2) : g1.Name = g2.Name ∧ b1 = b2 := by
  have hd := congrArg String.data h
  rw [placementBindingName_data, placementBindingName_data, List.append_left_inj,
    Itoa_data_of_pos b1 h1, Itoa_data_of_pos b2 h2] at hd
  obtain ⟨e1, e2⟩ := batch_base_inj _ _ _ _ hd
  exact ⟨String.ext e1, by omega⟩

/-- Within one group name the policy name determines the batch index and the template name. -/
theorem policyName_inj_same_group (g1 g2 : Group) (b1 b2 : Int) (n1 n2 : String)
    (hg : g1.Name = g2.Name) (h1 : 1 ≤ b1) (h2 : 1 ≤ b2)
    (h : policyName g1 b1 n1 = policyName g2 b2 n2) : b1 = b2 ∧ n1 = n2 := by
  have hd := congrArg String.data h
  rw [policyName_data, policyName_data, List.append_left_inj, hg,
    Itoa_data_of_pos b1 h1, Itoa_data_of_pos b2 h2] at hd
  simp only [List.append_assoc, List.cons_append, List.append_cancel_left_eq, List.cons.injEq,
    true_and] at hd
  have hd2 : Nat.toDigits 10 b1.toNat ++ '-' :: n1.data
      = Nat.toDigits 10 b2.toNat ++ '-' :: n2.data := by
    simpa using hd
  obtain ⟨e1, e2⟩ := split_at_first '-' _ _ _ _ (toDigits_no_dash _) (toDigits_no_dash _) hd2
  have := toDigits_injective e1
  exact ⟨by omega, String.ext e2⟩

/-- Policy names built for the same template name determine the group name and the batch. -/
theorem policyName_inj_same_template (g1 g2 : Group) (b1 b2 : Int) (n : String)
    (h1 : 1 ≤ b1) (h2 : 1 ≤ b2)
    (h : policyName g1 b1 n = policyName g2 b2 n) : g1.Name = g2.Name ∧ b1 = b2 := by
  have hd := congrArg String.data h
  rw [policyName_data, policyName_data, List.append_left_inj, List.append_left_inj,
    Itoa_data_of_pos b1 h1, Itoa_data_of_pos b2 h2] at hd
  obtain ⟨e1, e2⟩ := batch_base_inj _ _ _ _ hd
  exact ⟨String.ext e1, by omega⟩

/-- Policy names built for template names without a dash determine the template name. -/
theorem policyName_template_of_no_dash (g1 g2 : Group) (b1 b2 : Int) (n1 n2 : String)
    (hn1 : '-' ∉ n1.data) (hn2 : '-' ∉ n2.data)
    (h : policyName g1 b1 n1 = policyName g2 b2 n2) : n1 = n2 := by
  have hd := congrArg String.data h
  rw [policyName_data, policyName_data, List.append_left_inj] at hd
  exact String.ext (split_at_last '-' _ _ _ _ hn1 hn2 hd).2

/-! ## Names of the derived resources -/

/-- C1 (as stated, refuted): in the Group `grp` the distinct pairs `(1, pt1)` and `(1, pt2)`
get the same PlacementRule name and the same PlacementBinding name, because
both names are built from the Group name and the batch index alone. -/
theorem names_collide_within_batch :
    ((1 : Int), "pt1") ≠ ((1 : Int), "pt2") ∧
    (newPlacementRule (sampleGroup ["c1"] "Parallel" []) 1 ["c1"]).GetName
      = "grp-batch-1-placement-rule" ∧
    (newPlacementBinding (sampleGroup ["c1"] "Parallel" []) 1 (sampleTemplate "pt1")).map
      Unstructured.GetName = some "grp-batch-1-placement-binding" ∧
    (newPlacementBinding (sampleGroup ["c1"] "Parallel" []) 1 (sampleTemplate "pt2")).map
      Unstructured.GetName = some "grp-batch-1-placement-binding" := by
  decide

/-- C1 (amended): within one Group and for batch indices of at least one, the PlacementRule
names and the PlacementBinding names built by `newPlacementRule` and
`newPlacementBinding` differ whenever the batch indices differ, and the Policy
names built by `newPolicy` differ whenever the pairs
(batch index, template object name) differ. -/
theorem names_within_request (group : Group) (b1 b2 : Int) (s1 s2 : List String)
    (o1 o2 : Object) (n1 n2 : String) (h1 : 1 ≤ b1) (h2 : 1 ≤ b2) :
    (b1 ≠ b2 →
      (newPlacementRule group b1 s1).GetName ≠ (newPlacementRule group b2 s2).GetName ∧
      (newPlacementBinding group b1 ⟨some o1⟩).map Unstructured.GetName
        ≠ (newPlacementBinding group b2 ⟨some o2⟩).map Unstructured.GetName) ∧
    ((b1, n1) ≠ (b2, n2) → policyName group b1 n1 ≠ policyName group b2 n2) := by
  refine ⟨fun hb => ⟨?_, ?_⟩, fun hp h => ?_⟩
  · rw [newPlacementRule_GetName, newPlacementRule_GetName]
    exact fun h => hb (placementRuleName_inj group group b1 b2 h1 h2 h).2
  · rw [newPlacementBinding_GetName, newPlacementBinding_GetName]
    exact fun h => hb (placementBindingName_inj group group b1 b2 h1 h2 (Option.some.inj h)).2
  · obtain ⟨e1, e2⟩ := policyName_inj_same_group group group b1 b2 n1 n2 rfl h1 h2 h
    exact hp (by rw [e1, e2])

/-- C1 (amended), at batches 1 and 2 of the Group `grp` with templates `pt1` and `pt2`. -/
theorem names_within_request_witness :
    (1 : Int) ≤ 1 ∧ (1 : Int) ≤ 2 ∧
    ((1 : Int) ≠ 2 →
      (newPlacementRule (sampleGroup ["c1", "c2"] "Serial" []) 1 ["c1"]).GetName
        ≠ (newPlacementRule (sampleGroup ["c1", "c2"] "Serial" []) 2 ["c2"]).GetName ∧
      (newPlacementBinding (sampleGroup ["c1", "c2"] "Serial" []) 1 (sampleTemplate "pt1")).map
        Unstructured.GetName
        ≠ (newPlacementBinding (sampleGroup ["c1", "c2"] "Serial" []) 2 (sampleTemplate "pt2")).map
          Unstructured.GetName) ∧
    (((1 : Int), "pt1") ≠ ((2 : Int), "pt2") →
      policyName (sampleGroup ["c1", "c2"] "Serial" []) 1 "pt1"
        ≠ policyName (sampleGroup ["c1", "c2"] "Serial" []) 2 "pt2") :=
  ⟨by decide, by decide,
    names_within_request (sampleGroup ["c1", "c2"] "Serial" []) 1 2 ["c1"] ["c2"]
      (sampleObject "pt1") (sampleObject "pt2") "pt1" "pt2"
      (by decide) (by decide)⟩

/-- C6 (as stated, refuted): the Groups `a` and `a-batch-1-b` of one namespace contend for a
Policy name: template `b-batch-2-c` in batch 1 of the first and template `c` in
batch 2 of the second both yield `a-batch-1-b-batch-2-c-policy`. -/
theorem policy_names_collide_across_groups :
    ("a" : String) ≠ "a-batch-1-b" ∧
    policyInstanceName ⟨"a", "ns", "uid-1", ["c1"], "Parallel", []⟩ 1
      (sampleTemplate "b-batch-2-c") = some "a-batch-1-b-batch-2-c-policy" ∧
    policyInstanceName ⟨"a-batch-1-b", "ns", "uid-2", ["c1", "c2"], "Serial", []⟩ 2
      (sampleTemplate "c") = some "a-batch-1-b-batch-2-c-policy" := by
  decide

/-- C6 (amended): for two Groups with different names and batch indices of at least one, the
PlacementRule names differ and the PlacementBinding names differ; the Policy
names differ when the two template object names are equal or both contain no
dash. -/
theorem names_across_requests (g1 g2 : Group) (b1 b2 : Int) (s1 s2 : List String)
    (o1 o2 : Object) (n1 n2 : String) (hg : g1.Name ≠ g2.Name) (h1 : 1 ≤ b1) (h2 : 1 ≤ b2) :
    (newPlacementRule g1 b1 s1).GetName ≠ (newPlacementRule g2 b2 s2).GetName ∧
    (newPlacementBinding g1 b1 ⟨some o1⟩).map Unstructured.GetName
      ≠ (newPlacementBinding g2 b2 ⟨some o2⟩).map Unstructured.GetName ∧
    (n1 = n2 ∨ ('-' ∉ n1.data ∧ '-' ∉ n2.data) → policyName g1 b1 n1 ≠ policyName g2 b2 n2) := by
  refine ⟨?_, ?_, fun hn h => ?_⟩
  · rw [newPlacementRule_GetName, newPlacementRule_GetName]
    exact fun h => hg (placementRuleName_inj g1 g2 b1 b2 h1 h2 h).1
  · rw [newPlacementBinding_GetName, newPlacementBinding_GetName]
    exact fun h => hg (placementBindingName_inj g1 g2 b1 b2 h1 h2 (Option.some.inj h)).1
  · have hn2 : n1 = n2 := by
      rcases hn with hn | ⟨hn1, hn2⟩
      · exact hn
      · exact policyName_template_of_no_dash g1 g2 b1 b2 n1 n2 hn1 hn2 h
    subst hn2
    exact hg (policyName_inj_same_template g1 g2 b1 b2 n1 h1 h2 h).1

/-- C6 (amended), at the Groups `a` and `a-batch-1-b` with the template name `pt1`. -/
theorem names_across_requests_witness :
    ("a" : String) ≠ "a-batch-1-b" ∧ (1 : Int) ≤ 1 ∧
    (newPlacementRule ⟨"a", "ns", "uid-1", ["c1"], "Parallel", []⟩ 1 ["c1"]).GetName
      ≠ (newPlacementRule ⟨"a-batch-1-b", "ns", "uid-2", ["c1"], "Parallel", []⟩ 1 ["c1"]).GetName ∧
    (newPlacementBinding ⟨"a", "ns", "uid-1", ["c1"], "Parallel", []⟩ 1
      (sampleTemplate "pt1")).map
      Unstructured.GetName
      ≠ (newPlacementBinding ⟨"a-batch-1-b", "ns", "uid-2", ["c1"], "Parallel", []⟩ 1
        (sampleTemplate "pt1")).map
        Unstructured.GetName ∧
    (("pt1" : String) = "pt1" ∨ ('-' ∉ ("pt1" : String).data ∧ '-' ∉ ("pt1" : String).data) →
      policyName ⟨"a", "ns", "uid-1", ["c1"], "Parallel", []⟩ 1 "pt1"
        ≠ policyName ⟨"a-batch-1-b", "ns", "uid-2", ["c1"], "Parallel", []⟩ 1 "pt1") :=
  ⟨by decide, by decide,
    names_across_requests ⟨"a", "ns", "uid-1", ["c1"], "Parallel", []⟩
      ⟨"a-batch-1-b", "ns", "uid-2", ["c1"], "Parallel", []⟩ 1 1 ["c1"] ["c1"]
      (sampleObject "pt1") (sampleObject "pt1") "pt1" "pt1"
      (by decide) (by decide) (by decide)⟩

/-! ## The upgrade plan -/

theorem foldl_append_singletons (sites : List String) : ∀ acc : List (List String),
    sites.foldl (fun plan site => plan ++ [[site]]) acc = acc ++ sites.map (fun site => [site]) := by
  induction sites with
  | nil => intro acc; simp
  | cons s rest ih => intro acc; simp [List.foldl, ih]

theorem upgradePlan_parallel (group : Group) (h : group.UpgradeStrategyType = "Parallel") :
    upgradePlan group = [group.Sites] := by
  simp [upgradePlan, h]

theorem upgradePlan_sequential (group : Group) (h : group.UpgradeStrategyType ≠ "Parallel") :
    upgradePlan group = group.Sites.map (fun site => [site]) := by
  simp [upgradePlan, h, foldl_append_singletons]

theorem indexedPlan_sequential (group : Group) (h : group.UpgradeStrategyType ≠ "Parallel")
    (i : Nat) :
    (indexedPlan group)[i]? = (group.Sites[i]?).map (fun site => ((i : Int) + 1, [site])) := by
  simp only [indexedPlan, upgradePlan_sequential group h, List.getElem?_map, List.getElem?_enum]
  cases group.Sites[i]? <;> simp

/-- C2 (the code at the failing input): with the strategy type `Parallel` an empty site list is
planned as one empty batch; on an empty server `Reconcile` then issues a get
and a create for the PlacementRule of batch 1 and, with a template, for its
Policy and PlacementBinding too, and returns success.  The claim asks for an
empty plan and no call, which is what the other branch does on the same site
list. -/
theorem empty_sites_parallel_ensures_batch :
    (sampleGroup [] "Parallel" []).Sites = [] ∧
    upgradePlan (sampleGroup [] "Parallel" []) = [[]] ∧
    (Reconcile (sampleCluster [] (sampleGroup [] "Parallel" [])) ⟨"ns", "grp"⟩).2.calls.map
      Call.isCreate = [false, true] ∧
    (Reconcile (sampleCluster [] (sampleGroup [] "Parallel" [])) ⟨"ns", "grp"⟩).2.objects.map
      Unstructured.GetName = ["grp-batch-1-placement-rule"] ∧
    (Reconcile (sampleCluster [] (sampleGroup [] "Parallel" [sampleTemplate "pt1"]))
      ⟨"ns", "grp"⟩).1.isOk = true ∧
    (Reconcile (sampleCluster [] (sampleGroup [] "Parallel" [sampleTemplate "pt1"]))
      ⟨"ns", "grp"⟩).2.calls.map Call.isCreate = [false, true, false, true, false, true] ∧
    (Reconcile (sampleCluster [] (sampleGroup [] "Parallel" [sampleTemplate "pt1"]))
      ⟨"ns", "grp"⟩).2.objects.map Unstructured.GetName
      = ["grp-batch-1-placement-rule", "grp-batch-1-pt1-policy",
          "grp-batch-1-placement-binding"] ∧
    upgradePlan (sampleGroup [] "Serial" [sampleTemplate "pt1"]) = [] ∧
    (Reconcile (sampleCluster [] (sampleGroup [] "Serial" [sampleTemplate "pt1"]))
      ⟨"ns", "grp"⟩).2.calls.map Call.isCreate = [] := by
  decide

/-- The sibling branch on an empty site list: for a Group whose strategy type is not `Parallel`,
whatever its policy templates, the upgrade plan is empty and `Reconcile` returns
success leaving the server as it was: no get and no create is issued. -/
theorem empty_sites_sequential_noop (c : Cluster) (req : Request) (group : Group)
    (hg : c.fetchGroup req = .ok group) (hs : group.Sites = [])
    (hp : group.UpgradeStrategyType ≠ "Parallel") :
    upgradePlan group = [] ∧ Reconcile c req = (.ok (), c) ∧
    (Reconcile c req).2.calls = c.calls := by
  have hplan : upgradePlan group = [] := by rw [upgradePlan_sequential group hp, hs]; rfl
  have hrec : Reconcile c req = (.ok (), c) := by
    simp [Reconcile, hg, indexedPlan, hplan, List.enum, reconcileBatches]
  exact ⟨hplan, hrec, by rw [hrec]⟩

/-- The sibling branch at a Group without sites, with strategy `Serial` and one template. -/
theorem empty_sites_sequential_noop_witness :
    (sampleCluster [] (sampleGroup [] "Serial" [sampleTemplate "pt1"])).fetchGroup ⟨"ns", "grp"⟩
      = .ok (sampleGroup [] "Serial" [sampleTemplate "pt1"]) ∧
    (sampleGroup [] "Serial" [sampleTemplate "pt1"]).Sites = [] ∧
    (sampleGroup [] "Serial" [sampleTemplate "pt1"]).UpgradeStrategyType ≠ "Parallel" ∧
    (upgradePlan (sampleGroup [] "Serial" [sampleTemplate "pt1"]) = [] ∧
      Reconcile (sampleCluster [] (sampleGroup [] "Serial" [sampleTemplate "pt1"])) ⟨"ns", "grp"⟩
        = (.ok (), sampleCluster [] (sampleGroup [] "Serial" [sampleTemplate "pt1"])) ∧
      (Reconcile (sampleCluster [] (sampleGroup [] "Serial" [sampleTemplate "pt1"]))
        ⟨"ns", "grp"⟩).2.calls
        = (sampleCluster [] (sampleGroup [] "Serial" [sampleTemplate "pt1"])).calls) :=
  ⟨rfl, rfl, by decide,
    empty_sites_sequential_noop _ ⟨"ns", "grp"⟩ (sampleGroup [] "Serial" [sampleTemplate "pt1"])
      rfl rfl (by decide)⟩

/-- C3: for every site list (empty or not), when the strategy type is `Parallel` the upgrade plan
is the single batch of all sites in input order, the loop pairs it with batch
index 1, and `Reconcile` is one iteration of its loop, run with batch index 1 on
the whole site list. -/
theorem parallel_plan_single_batch (c : Cluster) (req : Request) (group : Group)
    (hg : c.fetchGroup req = .ok group) (hs : group.UpgradeStrategyType = "Parallel") :
    upgradePlan group = [group.Sites] ∧
    indexedPlan group = [(1, group.Sites)] ∧
    Reconcile c req =
      (match reconcileBatch group 1 group.Sites c with
       | (.ok _, c) => (.ok (), c)
       | r => r) := by
  refine ⟨upgradePlan_parallel group hs, ?_, ?_⟩
  · simp [indexedPlan, upgradePlan_parallel group hs, List.enum]
  · simp [Reconcile, hg, indexedPlan, upgradePlan_parallel group hs, List.enum, reconcileBatches]

/-- C3, at the sites `c1, c2, c3` with one template. -/
theorem parallel_plan_single_batch_witness :
    (sampleCluster [] (sampleGroup ["c1", "c2", "c3"] "Parallel" [sampleTemplate "pt1"])).fetchGroup
      ⟨"ns", "grp"⟩ = .ok (sampleGroup ["c1", "c2", "c3"] "Parallel" [sampleTemplate "pt1"]) ∧
    (sampleGroup ["c1", "c2", "c3"] "Parallel" [sampleTemplate "pt1"]).Sites ≠ [] ∧
    upgradePlan (sampleGroup ["c1", "c2", "c3"] "Parallel" [sampleTemplate "pt1"])
      = [["c1", "c2", "c3"]] ∧
    indexedPlan (sampleGroup ["c1", "c2", "c3"] "Parallel" [sampleTemplate "pt1"])
      = [(1, ["c1", "c2", "c3"])] :=
  ⟨rfl, by decide,
    (parallel_plan_single_batch
      (sampleCluster [] (sampleGroup ["c1", "c2", "c3"] "Parallel" [sampleTemplate "pt1"]))
      ⟨"ns", "grp"⟩ (sampleGroup ["c1", "c2", "c3"] "Parallel" [sampleTemplate "pt1"])
      rfl rfl).1,
    (parallel_plan_single_batch
      (sampleCluster [] (sampleGroup ["c1", "c2", "c3"] "Parallel" [sampleTemplate "pt1"]))
      ⟨"ns", "grp"⟩ (sampleGroup ["c1", "c2", "c3"] "Parallel" [sampleTemplate "pt1"])
      rfl rfl).2.1⟩

/-- C4: when the strategy type is not `Parallel` (the one-at-a-time case), the upgrade plan of
every site list of length N has N batches, its i-th batch is the single site at
position i, the loop pairs the batch at position i (counted from 0) with batch
index i + 1, so the indices handed to the ensure operations are 1, 2, ..., N in
order, and `Reconcile` runs its loop over exactly these pairs. -/
theorem sequential_plan_singletons (c : Cluster) (req : Request) (group : Group)
    (hg : c.fetchGroup req = .ok group) (hs : group.UpgradeStrategyType ≠ "Parallel") :
    (upgradePlan group).length = group.Sites.length ∧
    (∀ i : Nat, (upgradePlan group)[i]? = (group.Sites[i]?).map (fun site => [site])) ∧
    (indexedPlan group).length = group.Sites.length ∧
    (∀ i : Nat, (indexedPlan group)[i]?
      = (group.Sites[i]?).map (fun site => ((i : Int) + 1, [site]))) ∧
    Reconcile c req = reconcileBatches group (indexedPlan group) c := by
  refine ⟨?_, ?_, ?_, indexedPlan_sequential group hs, ?_⟩
  · simp [upgradePlan_sequential group hs]
  · intro i; simp [upgradePlan_sequential group hs]
  · simp [indexedPlan, upgradePlan_sequential group hs]
  · simp [Reconcile, hg]

/-- C4, at the sites `c1, c2, c3` with strategy `Serial`. -/
theorem sequential_plan_singletons_witness :
    (sampleCluster [] (sampleGroup ["c1", "c2", "c3"] "Serial" [sampleTemplate "pt1"])).fetchGroup
      ⟨"ns", "grp"⟩ = .ok (sampleGroup ["c1", "c2", "c3"] "Serial" [sampleTemplate "pt1"]) ∧
    (sampleGroup ["c1", "c2", "c3"] "Serial" [sampleTemplate "pt1"]).Sites ≠ [] ∧
    (sampleGroup ["c1", "c2", "c3"] "Serial" [sampleTemplate "pt1"]).UpgradeStrategyType
      ≠ "Parallel" ∧
    (upgradePlan (sampleGroup ["c1", "c2", "c3"] "Serial" [sampleTemplate "pt1"])).length = 3 ∧
    indexedPlan (sampleGroup ["c1", "c2", "c3"] "Serial" [sampleTemplate "pt1"])
      = [(1, ["c1"]), (2, ["c2"]), (3, ["c3"])] :=
  ⟨rfl, by decide, by decide,
    (sequential_plan_singletons
      (sampleCluster [] (sampleGroup ["c1", "c2", "c3"] "Serial" [sampleTemplate "pt1"]))
      ⟨"ns", "grp"⟩ (sampleGroup ["c1", "c2", "c3"] "Serial" [sampleTemplate "pt1"])
      rfl (by decide)).1,
    by decide⟩
/-! ## Map lemmas -/

theorem mapGet_mapSet_self (m : Object) (k : String) (v : Value) :
    mapGet (mapSet m k v) k = some v := by
  induction m with
  | nil => simp [mapSet, mapGet]
  | cons kv m ih =>
    obtain ⟨k', v'⟩ := kv
    by_cases h : k' = k <;> simp [mapSet, mapGet, h, ih]

theorem mapGet_mapSet_ne (m : Object) (k j : String) (v : Value) (h : j ≠ k) :
    mapGet (mapSet m k v) j = mapGet m j := by
  induction m with
  | nil => simp [mapSet, mapGet, Ne.symm h]
  | cons kv m ih =>
    obtain ⟨k', v'⟩ := kv
    by_cases h1 : k' = k
    · subst h1; simp [mapSet, mapGet, Ne.symm h]
    · by_cases h2 : k' = j
      · subst h2; simp [mapSet, mapGet, h1]
      · simp [mapSet, mapGet, h1, h2, ih]

theorem mapGet_mapDelete_self (m : Object) (k : String) : mapGet (mapDelete m k) k = none := by
  induction m with
  | nil => simp [mapDelete, mapGet]
  | cons kv m ih =>
    obtain ⟨k', v'⟩ := kv
    by_cases h : k' = k <;> simp [mapDelete, mapGet, h, ih]

theorem mapGet_mapDelete_ne (m : Object) (k j : String) (h : j ≠ k) :
    mapGet (mapDelete m k) j = mapGet m j := by
  induction m with
  | nil => simp [mapDelete, mapGet]
  | cons kv m ih =>
    obtain ⟨k', v'⟩ := kv
    by_cases h1 : k' = k
    · subst h1; simp [mapDelete, mapGet, Ne.symm h, ih]
    · by_cases h2 : k' = j
      · subst h2; simp [mapDelete, mapGet, h1]
      · simp [mapDelete, mapGet, h1, h2, ih]

theorem policyName_ne_empty (group : Group) (b : Int) (n : String) : policyName group b n ≠ "" := by
  intro h
  have hd := congrArg String.data h
  rw [policyName_data] at hd
  simp at hd

theorem policyName_format (group : Group) (b : Int) (n : String) :
    policyName group b n = group.Name ++ "-batch-" ++ Itoa b ++ "-" ++ n ++ "-policy" := by
  apply String.ext
  simp [policyName, String.data_append, List.append_assoc]

theorem placementRuleName_format (group : Group) (b : Int) :
    placementRuleName group b = group.Name ++ "-batch-" ++ Itoa b ++ "-placement-rule" := by
  apply String.ext
  simp [placementRuleName, String.data_append, List.append_assoc]

theorem placementBindingName_format (group : Group) (b : Int) :
    placementBindingName group b = group.Name ++ "-batch-" ++ Itoa b ++ "-placement-binding" := by
  apply String.ext
  simp [placementBindingName, String.data_append, List.append_assoc]

/-- The object `newPolicy` returns, written out: `md` is the template's metadata map, or the
empty map when the template has none. -/
theorem newPolicy_object (group : Group) (b : Int) (o md sp : Object)
    (hmd : mapGet o "metadata" = some (.map md) ∨ (mapGet o "metadata" = none ∧ md = []))
    (hsp : mapGet o "spec" = some (.map sp)) :
    newPolicy group b ⟨some o⟩ = .ok (some ⟨mapSet
      (mapSet (mapSet o "metadata" (.map (mapSet md "name"
          (.str (policyName group b (Unstructured.GetName ⟨o⟩))))))
        "metadata" (.map (if group.Namespace = ""
          then mapDelete (mapSet md "name"
            (.str (policyName group b (Unstructured.GetName ⟨o⟩)))) "namespace"
          else mapSet (mapSet md "name"
            (.str (policyName group b (Unstructured.GetName ⟨o⟩)))) "namespace"
            (.str group.Namespace))))
      "spec" (.map (mapSet sp "remediationAction" (.str "inform")))⟩) := by
  have hne := policyName_ne_empty group b (Unstructured.GetName ⟨o⟩)
  have hms : ("spec" : String) ≠ "metadata" := by decide
  rcases hmd with hmd | ⟨hmd, rfl⟩ <;> by_cases hns : group.Namespace = "" <;>
    simp [newPolicy, Unstructured.SetName, Unstructured.SetNamespace, Unstructured.setField,
      setNestedField, removeNestedField, hne, hmd, hns, mapGet_mapSet_self, mapGet_mapSet_ne,
      hms, hsp]

theorem metadataWritable_cases (o : Object) (h : metadataWritable o = true) :
    ∃ md, (mapGet o "metadata" = some (.map md) ∨ (mapGet o "metadata" = none ∧ md = [])) ∧
      ∀ k, nestedField o ["metadata", k] = mapGet md k := by
  unfold metadataWritable at h
  cases hm : mapGet o "metadata" with
  | none => exact ⟨[], Or.inr ⟨rfl, rfl⟩, fun k => by simp [nestedField, hm, mapGet]⟩
  | some v =>
    cases v with
    | map md => exact ⟨md, Or.inl rfl, fun k => by simp [nestedField, hm]⟩
    | _ => simp [hm] at h

theorem specIsMap_cases (o : Object) (h : specIsMap o = true) :
    ∃ sp, mapGet o "spec" = some (.map sp) := by
  unfold specIsMap at h
  cases hm : mapGet o "spec" with
  | none => simp [hm] at h
  | some v =>
    cases v with
    | map sp => exact ⟨sp, rfl⟩
    | _ => simp [hm] at h

/-! ## The derived objects -/

/-- What `newPolicy` returns on a template with a map-valued `spec` and a writable `metadata`. -/
theorem newPolicy_fields (group : Group) (b : Int) (o : Object)
    (hmd : metadataWritable o = true) (hsp : specIsMap o = true) :
    ∃ p : Unstructured, newPolicy group b ⟨some o⟩ = .ok (some p) ∧
      nestedField p.object ["metadata", "name"]
        = some (.str (group.Name ++ "-batch-" ++ Itoa b ++ "-" ++ Unstructured.GetName ⟨o⟩
            ++ "-policy")) ∧
      nestedField p.object ["metadata", "namespace"]
        = (if group.Namespace = "" then none else some (.str group.Namespace)) ∧
      p.GetNamespace = group.Namespace ∧
      nestedField p.object ["spec", "remediationAction"] = some (.str "inform") ∧
      (∀ k, k ≠ "metadata" → k ≠ "spec" → mapGet p.object k = mapGet o k) ∧
      (∀ k, k ≠ "name" → k ≠ "namespace" →
        nestedField p.object ["metadata", k] = nestedField o ["metadata", k]) ∧
      (∀ k, k ≠ "remediationAction" →
        nestedField p.object ["spec", k] = nestedField o ["spec", k]) := by
  obtain ⟨md, hmd, hmdk⟩ := metadataWritable_cases o hmd
  obtain ⟨sp, hsp⟩ := specIsMap_cases o hsp
  have hms : ("metadata" : String) ≠ "spec" := by decide
  have hnn : ("name" : String) ≠ "namespace" := by decide
  refine ⟨_, newPolicy_object group b o md sp hmd hsp, ?_, ?_, ?_, ?_, ?_, ?_, ?_⟩
  · rw [← policyName_format]
    by_cases hns : group.Namespace = "" <;>
      simp [nestedField, mapGet_mapSet_self, mapGet_mapSet_ne, mapGet_mapDelete_ne, hms, hnn, hns]
  · by_cases hns : group.Namespace = "" <;>
      simp [nestedField, mapGet_mapSet_self, mapGet_mapSet_ne, mapGet_mapDelete_self, hms, hns]
  · by_cases hns : group.Namespace = "" <;>
      simp [Unstructured.GetNamespace, nestedString, nestedField, mapGet_mapSet_self,
        mapGet_mapSet_ne, mapGet_mapDelete_self, hms, hns]
  · simp [nestedField, mapGet_mapSet_self]
  · intro k h1 h2
    simp [mapGet_mapSet_ne, h1, h2]
  · intro k h1 h2
    rw [hmdk k]
    by_cases hns : group.Namespace = "" <;>
      simp [nestedField, mapGet_mapSet_self, mapGet_mapSet_ne, mapGet_mapDelete_ne, hms, hns,
        h1, h2]
  · intro k h1
    simp [nestedField, mapGet_mapSet_self, mapGet_mapSet_ne, hsp, h1]


/-- C8 (amended): for a template that parses to an object whose `spec` is a map and whose
`metadata` is absent or a map, `newPolicy` returns the parsed object with
`metadata.name` set to group-batch-index-templatename-policy,
`metadata.namespace` set to the Group's namespace (removed when that namespace
is empty) and `spec.remediationAction` set to `inform`; every other top-level
field, every other field of `metadata` and every other field of `spec` is the
template's. -/
theorem newPolicy_overwrites_three_fields (group : Group) (b : Int) (o : Object)
    (hmd : metadataWritable o = true) (hsp : specIsMap o = true) :
    ∃ p : Unstructured, newPolicy group b ⟨some o⟩ = .ok (some p) ∧
      nestedField p.object ["metadata", "name"]
        = some (.str (group.Name ++ "-batch-" ++ Itoa b ++ "-" ++ Unstructured.GetName ⟨o⟩
            ++ "-policy")) ∧
      nestedField p.object ["metadata", "namespace"]
        = (if group.Namespace = "" then none else some (.str group.Namespace)) ∧
      p.GetNamespace = group.Namespace ∧
      nestedField p.object ["spec", "remediationAction"] = some (.str "inform") ∧
      (∀ k, k ≠ "metadata" → k ≠ "spec" → mapGet p.object k = mapGet o k) ∧
      (∀ k, k ≠ "name" → k ≠ "namespace" →
        nestedField p.object ["metadata", k] = nestedField o ["metadata", k]) ∧
      (∀ k, k ≠ "remediationAction" →
        nestedField p.object ["spec", k] = nestedField o ["spec", k]) := by
  obtain ⟨p, hp, hfields⟩ := newPolicy_fields group b o hmd hsp
  exact ⟨p, hp, hfields⟩

/-- C8 (as stated, refuted): a template whose `spec` is a map but whose `metadata` is a string is
returned by `newPolicy` without the new name: `SetName` cannot write below a
non-map `metadata`, so the result still has the empty name instead of
`grp-batch-1--policy`. -/
theorem newPolicy_skips_name_on_bad_metadata :
    sampleBadMetadataTemplate.ObjectDefinition.map specIsMap = some true ∧
    policyName (sampleGroup ["c1"] "Parallel" []) 1 "" = "grp-batch-1--policy" ∧
    policyInstanceName (sampleGroup ["c1"] "Parallel" []) 1 sampleBadMetadataTemplate
      = some "" := by
  decide

/-- C8 (amended), at the template `pt1` in batch 1 of the Group `grp`. -/
theorem newPolicy_overwrites_three_fields_witness :
    (sampleTemplate "pt1").ObjectDefinition.map metadataWritable = some true ∧
    (sampleTemplate "pt1").ObjectDefinition.map specIsMap = some true ∧
    ∃ p : Unstructured,
      newPolicy (sampleGroup ["c1"] "Parallel" []) 1 (sampleTemplate "pt1") = .ok (some p) ∧
      p.GetName = "grp-batch-1-pt1-policy" ∧
      p.GetNamespace = "ns" ∧
      nestedField p.object ["spec", "remediationAction"] = some (.str "inform") := by
  refine ⟨by decide, by decide, ?_⟩
  obtain ⟨p, hp, hname, _, hns, hra, _⟩ :=
    newPolicy_overwrites_three_fields (sampleGroup ["c1"] "Parallel" []) 1
      (sampleObject "pt1")
      (by decide) (by decide)
  refine ⟨p, hp, ?_, hns, hra⟩
  simp only [Unstructured.GetName, nestedString, hname]
  decide

/-- Renaming and re-namespacing never touch the `spec` entry of the root map. -/
theorem spec_after_rename (o : Object) (name ns : String) :
    mapGet ((Unstructured.SetName ⟨o⟩ name).SetNamespace ns).object "spec" = mapGet o "spec" := by
  have hms : ("spec" : String) ≠ "metadata" := by decide
  by_cases hn : name = "" <;> by_cases hns : ns = "" <;>
    cases hm : mapGet o "metadata" with
    | none =>
      simp [Unstructured.SetName, Unstructured.SetNamespace, Unstructured.setField,
        setNestedField, removeNestedField, hn, hns, hm, mapGet_mapSet_self, mapGet_mapSet_ne, hms]
    | some v =>
      cases v <;>
      simp [Unstructured.SetName, Unstructured.SetNamespace, Unstructured.setField,
        setNestedField, removeNestedField, hn, hns, hm, mapGet_mapSet_self, mapGet_mapSet_ne, hms]

theorem newPolicy_returns_specIsMap (group : Group) (b : Int) (o : Object) (p : Unstructured)
    (h : newPolicy group b ⟨some o⟩ = .ok (some p)) : specIsMap o = true := by
  unfold specIsMap
  simp only [newPolicy] at h
  rw [spec_after_rename] at h
  cases hm : mapGet o "spec" with
  | none => simp [hm] at h
  | some v => cases v <;> simp_all

theorem newPolicy_GetName (group : Group) (b : Int) (o : Object) (p : Unstructured)
    (hmd : metadataWritable o = true) (h : newPolicy group b ⟨some o⟩ = .ok (some p)) :
    p.GetName = policyName group b (Unstructured.GetName ⟨o⟩) := by
  obtain ⟨q, hq, hname, _⟩ := newPolicy_fields group b o hmd
    (newPolicy_returns_specIsMap group b o p h)
  rw [h] at hq
  cases hq
  simp [Unstructured.GetName, nestedString, hname, policyName_format]

/-- C10: the selector built by `newPlacementRule` is a PlacementRule named
group-batch-index-placement-rule in the Group's namespace, its
`spec.clusterConditions` is the single condition
(type ManagedClusterConditionAvailable, status True), and its `spec.clusters`
lists one `name` entry per site of the batch, in the order of the batch and
with the same length. -/
theorem newPlacementRule_selector (group : Group) (b : Int) (sites : List String) :
    (newPlacementRule group b sites).GetName
      = group.Name ++ "-batch-" ++ Itoa b ++ "-placement-rule" ∧
    (newPlacementRule group b sites).GetNamespace = group.Namespace ∧
    (newPlacementRule group b sites).GetKind = "PlacementRule" ∧
    (newPlacementRule group b sites).GetAPIVersion = "apps.open-cluster-management.io/v1" ∧
    nestedField (newPlacementRule group b sites).object ["spec", "clusterConditions"]
      = some (.list [.map [("type", .str "ManagedClusterConditionAvailable"),
          ("status", .str "True")]]) ∧
    nestedField (newPlacementRule group b sites).object ["spec", "clusters"]
      = some (.list (sites.map (fun site => .map [("name", .str site)]))) ∧
    (sites.map (fun site => Value.map [("name", .str site)])).length = sites.length := by
  refine ⟨?_, rfl, rfl, rfl, rfl, rfl, by simp⟩
  rw [newPlacementRule_GetName, placementRuleName_format]

/-- C9 (amended): for a template that parses, `newPlacementBinding` returns a binding named
group-batch-index-placement-binding whose `placementRef` has kind PlacementRule
and the name of the result of `newPlacementRule`, and whose `subjects` is one
entry of kind Policy named group-batch-index-templatename-policy; when the
template's `metadata` is absent or a map, that is the name of the object
`newPolicy` returns, whenever it returns one. -/
theorem newPlacementBinding_refs (group : Group) (b : Int) (sites : List String) (o : Object) :
    ∃ pb : Unstructured, newPlacementBinding group b ⟨some o⟩ = some pb ∧
      pb.GetName = group.Name ++ "-batch-" ++ Itoa b ++ "-placement-binding" ∧
      placementRef pb = ("PlacementRule", (newPlacementRule group b sites).GetName) ∧
      subjectRefs pb = [("Policy",
        group.Name ++ "-batch-" ++ Itoa b ++ "-" ++ Unstructured.GetName ⟨o⟩ ++ "-policy")] ∧
      (metadataWritable o = true → ∀ p : Unstructured,
        newPolicy group b ⟨some o⟩ = .ok (some p) → subjectRefs pb = [("Policy", p.GetName)]) := by
  refine ⟨_, rfl, ?_, rfl, ?_, ?_⟩
  · rw [← placementBindingName_format]; rfl
  · rw [← policyName_format]; rfl
  · intro hmd p hp
    rw [newPolicy_GetName group b o p hmd hp]; rfl


/-- C9 (as stated, refuted): for the parseable template whose `metadata` is a string, the
binding's subject is named `grp-batch-1--policy` while the object returned by
`newPolicy` has the empty name. -/
theorem binding_subject_differs_on_bad_metadata :
    (newPlacementBinding (sampleGroup ["c1"] "Parallel" []) 1 sampleBadMetadataTemplate).map
      subjectRefs = some [("Policy", "grp-batch-1--policy")] ∧
    policyInstanceName (sampleGroup ["c1"] "Parallel" []) 1 sampleBadMetadataTemplate
      = some "" := by
  decide

/-- C9 (amended), at the template `pt1` in batch 1 of the Group `grp`. -/
theorem newPlacementBinding_refs_witness :
    (sampleTemplate "pt1").ObjectDefinition.map metadataWritable = some true ∧
    policyInstanceName (sampleGroup ["c1"] "Parallel" []) 1 (sampleTemplate "pt1")
      = some "grp-batch-1-pt1-policy" ∧
    ∃ pb : Unstructured,
      newPlacementBinding (sampleGroup ["c1"] "Parallel" []) 1 (sampleTemplate "pt1") = some pb ∧
      placementRef pb = ("PlacementRule", "grp-batch-1-placement-rule") ∧
      ∀ p : Unstructured,
        newPolicy (sampleGroup ["c1"] "Parallel" []) 1 (sampleTemplate "pt1") = .ok (some p) →
          subjectRefs pb = [("Policy", p.GetName)] := by
  refine ⟨by decide, by decide, ?_⟩
  obtain ⟨pb, hpb, _, href, _, hsub⟩ :=
    newPlacementBinding_refs (sampleGroup ["c1"] "Parallel" []) 1 ["c1"]
      (sampleObject "pt1")
  exact ⟨pb, hpb, href, hsub (by decide)⟩

/-! ## The pass as a run of ensure steps -/

theorem runSteps_append (group : Group) (xs ys : List Step) (c : Cluster) :
    runSteps group (xs ++ ys) c =
      (match runSteps group xs c with
       | (.ok _, c) => runSteps group ys c
       | r => r) := by
  induction xs generalizing c with
  | nil => simp [runSteps]
  | cons s xs ih =>
    simp only [List.cons_append, runSteps]
    rcases h : runStep group s c with ⟨r, c1⟩
    cases r <;> simp [ih]

theorem reconcileTemplates_eq_runSteps (group : Group) (b : Int) (ts : List GroupPolicyTemplate)
    (c : Cluster) : reconcileTemplates group b ts c = runSteps group (templateSteps b ts) c := by
  induction ts generalizing c with
  | nil => simp [reconcileTemplates, templateSteps, runSteps]
  | cons t ts ih =>
    simp only [reconcileTemplates, templateSteps, runSteps, runStep]
    rcases h : ensurePolicy group b t c with ⟨r, c1⟩
    cases r <;> simp
    rcases h2 : ensurePlacementBinding group b t c1 with ⟨r2, c2⟩
    cases r2 <;> simp [ih]

theorem reconcileBatches_eq_runSteps (group : Group) (plan : List (Int × List String))
    (c : Cluster) :
    reconcileBatches group plan c = runSteps group (planSteps group.GroupPolicyTemplates plan) c := by
  induction plan generalizing c with
  | nil => simp [reconcileBatches, planSteps, runSteps]
  | cons p plan ih =>
    obtain ⟨b, sites⟩ := p
    simp only [reconcileBatches, planSteps, reconcileBatch, runSteps, runStep,
      List.cons_append]
    rcases h : ensurePlacementRule group b sites c with ⟨r, c1⟩
    cases r <;> simp
    rw [reconcileTemplates_eq_runSteps, runSteps_append]
    rcases h2 : runSteps group (templateSteps b group.GroupPolicyTemplates) c1 with ⟨r2, c2⟩
    cases r2 <;> simp [ih]

theorem templateSteps_length (b : Int) (ts : List GroupPolicyTemplate) :
    (templateSteps b ts).length = 2 * ts.length := by
  induction ts with
  | nil => rfl
  | cons t ts ih => simp [templateSteps, ih]; omega

theorem planSteps_length (ts : List GroupPolicyTemplate) (plan : List (Int × List String)) :
    (planSteps ts plan).length = plan.length * (1 + 2 * ts.length) := by
  induction plan with
  | nil => simp [planSteps]
  | cons p plan ih =>
    obtain ⟨b, sites⟩ := p
    simp [planSteps, templateSteps_length, ih]
    ring


/-! ## One ensure call -/

theorem Create_objects_length (c : Cluster) (u : Unstructured) :
    (c.Create u).2.objects.length ≤ c.objects.length + 1 := by
  unfold Cluster.Create
  cases c.createError u <;> simp [Cluster.logged]

theorem Create_creates (c : Cluster) (u : Unstructured) :
    (c.Create u).2.creates = c.creates + 1 := by
  unfold Cluster.Create
  cases c.createError u <;> simp [Cluster.logged, Cluster.creates, List.filter_append, Call.isCreate]

theorem Create_sameServer (c : Cluster) (u : Unstructured) : c.SameServer (c.Create u).2 := by
  unfold Cluster.Create
  cases c.createError u <;> exact ⟨rfl, rfl, rfl⟩

/-- Every ensure call stores at most one object and issues at most one create. -/
theorem ensureObject_bound (group : Group) (gvk : GroupVersionKind) (obj : Unstructured)
    (c : Cluster) :
    (ensureObject group gvk obj c).2.objects.length ≤ c.objects.length + 1 ∧
    (ensureObject group gvk obj c).2.creates ≤ c.creates + 1 ∧
    c.SameServer (ensureObject group gvk obj c).2 := by
  unfold ensureObject
  cases SetControllerReference group obj with
  | error e => exact ⟨by simp, by simp, rfl, rfl, rfl⟩
  | ok obj1 =>
    simp only [Cluster.Get]
    cases c.getError (lookupKey gvk group.Namespace obj1.GetName) with
    | none =>
      exact ⟨by simp [Cluster.logged], by simp [Cluster.logged, Cluster.creates, List.filter_append, Call.isCreate], rfl, rfl, rfl⟩
    | some err =>
      by_cases hnf : err.IsNotFound = true
      · simp only [hnf, if_true]
        have h1 := Create_objects_length (c.logged (.get (lookupKey gvk group.Namespace obj1.GetName))) obj1
        have h2 := Create_creates (c.logged (.get (lookupKey gvk group.Namespace obj1.GetName))) obj1
        have h3 := Create_sameServer (c.logged (.get (lookupKey gvk group.Namespace obj1.GetName))) obj1
        rcases hc : (c.logged (.get (lookupKey gvk group.Namespace obj1.GetName))).Create obj1 with ⟨e2, c2⟩
        rw [hc] at h1 h2 h3
        have h4 : (c.logged (.get (lookupKey gvk group.Namespace obj1.GetName))).creates = c.creates := by
          simp [Cluster.logged, Cluster.creates, List.filter_append, Call.isCreate]
        cases e2 <;> exact ⟨by simpa using h1, by simp at h2 ⊢; omega, h3⟩
      · simp only [hnf]
        exact ⟨by simp [Cluster.logged], by simp [Cluster.logged, Cluster.creates, List.filter_append, Call.isCreate], rfl, rfl, rfl⟩

theorem newPolicy_ne_error (group : Group) (b : Int) (t : GroupPolicyTemplate) (e : Err) :
    newPolicy group b t ≠ .error e := by
  unfold newPolicy
  cases t.ObjectDefinition with
  | none => simp
  | some o =>
    simp only
    split <;> simp

/-- A step is its ensure call on the object it builds, or a panic when there is none. -/
theorem runStep_eq (group : Group) (s : Step) (c : Cluster) :
    runStep group s c =
      (match s.object group with
       | some obj => ensureObject group s.gvk obj c
       | none => (.panic, c)) := by
  cases s with
  | rule b sites => rfl
  | policy b t =>
    simp only [runStep, ensurePolicy, Step.object, Step.gvk]
    cases h : newPolicy group b t with
    | ok r => cases r <;> rfl
    | error e => exact absurd h (newPolicy_ne_error group b t e)
    | panic => rfl
  | binding b t =>
    simp only [runStep, ensurePlacementBinding, Step.object, Step.gvk]
    cases newPlacementBinding group b t <;> rfl

theorem sameServer_refl (c : Cluster) : c.SameServer c := ⟨rfl, rfl, rfl⟩

theorem sameServer_trans {a b c : Cluster} (h1 : a.SameServer b) (h2 : b.SameServer c) :
    a.SameServer c :=
  ⟨h2.1.trans h1.1, h2.2.1.trans h1.2.1, h2.2.2.trans h1.2.2⟩

theorem runStep_bound (group : Group) (s : Step) (c : Cluster) :
    (runStep group s c).2.objects.length ≤ c.objects.length + 1 ∧
    (runStep group s c).2.creates ≤ c.creates + 1 ∧
    c.SameServer (runStep group s c).2 := by
  rw [runStep_eq]
  cases s.object group with
  | some obj => exact ensureObject_bound group s.gvk obj c
  | none => exact ⟨by simp, by simp, sameServer_refl c⟩

theorem runSteps_bound (group : Group) (steps : List Step) (c : Cluster) :
    (runSteps group steps c).2.objects.length ≤ c.objects.length + steps.length ∧
    (runSteps group steps c).2.creates ≤ c.creates + steps.length ∧
    c.SameServer (runSteps group steps c).2 := by
  induction steps generalizing c with
  | nil => exact ⟨by simp [runSteps], by simp [runSteps], sameServer_refl c⟩
  | cons s steps ih =>
    have h := runStep_bound group s c
    simp only [runSteps]
    rcases hr : runStep group s c with ⟨r, c1⟩
    rw [hr] at h
    simp only at h
    cases r with
    | ok u =>
      have h2 := ih c1
      simp only [List.length_cons]
      exact ⟨by omega, by omega, sameServer_trans h.2.2 h2.2.2⟩
    | error e => simp only [List.length_cons]; exact ⟨by omega, by omega, h.2.2⟩
    | panic => simp only [List.length_cons]; exact ⟨by omega, by omega, h.2.2⟩

theorem indexedPlan_length (group : Group) : (indexedPlan group).length = (upgradePlan group).length := by
  simp [indexedPlan]

/-- C7 (amended): one `Reconcile` pass stores, and issues creates for, at most
(number of batches) x (1 + 2 x number of policy templates) derived resources:
one PlacementRule per batch plus a Policy and a PlacementBinding per batch and
template.  Hence at most 3 x batches x templates when the Group has at least
one template, and at most one PlacementRule per batch when it has none. -/
theorem reconcile_creates_bound (c : Cluster) (req : Request) (group : Group)
    (hg : c.fetchGroup req = .ok group) :
    (Reconcile c req).2.objects.length
      ≤ c.objects.length
        + (upgradePlan group).length * (1 + 2 * group.GroupPolicyTemplates.length) ∧
    (Reconcile c req).2.creates
      ≤ c.creates + (upgradePlan group).length * (1 + 2 * group.GroupPolicyTemplates.length) ∧
    (group.GroupPolicyTemplates ≠ [] →
      (Reconcile c req).2.objects.length
        ≤ c.objects.length + 3 * (upgradePlan group).length * group.GroupPolicyTemplates.length ∧
      (Reconcile c req).2.creates
        ≤ c.creates + 3 * (upgradePlan group).length * group.GroupPolicyTemplates.length) := by
  have h := runSteps_bound group (planSteps group.GroupPolicyTemplates (indexedPlan group)) c
  rw [planSteps_length, indexedPlan_length] at h
  have hr : Reconcile c req
      = runSteps group (planSteps group.GroupPolicyTemplates (indexedPlan group)) c := by
    simp [Reconcile, hg, reconcileBatches_eq_runSteps]
  rw [hr]
  refine ⟨h.1, h.2.1, fun hne => ?_⟩
  have hT : 1 ≤ group.GroupPolicyTemplates.length := by
    cases hl : group.GroupPolicyTemplates with
    | nil => exact absurd hl hne
    | cons t ts => simp
  have hle : (upgradePlan group).length * (1 + 2 * group.GroupPolicyTemplates.length)
      ≤ 3 * (upgradePlan group).length * group.GroupPolicyTemplates.length := by
    have : 1 + 2 * group.GroupPolicyTemplates.length ≤ 3 * group.GroupPolicyTemplates.length := by
      omega
    calc (upgradePlan group).length * (1 + 2 * group.GroupPolicyTemplates.length)
        ≤ (upgradePlan group).length * (3 * group.GroupPolicyTemplates.length) :=
          Nat.mul_le_mul_left _ this
      _ = 3 * (upgradePlan group).length * group.GroupPolicyTemplates.length := by ring
  exact ⟨by omega, by omega⟩


/-- C7 (as stated, refuted): a Group with one site and no policy template creates one resource,
the PlacementRule of batch 1, although 3 x batches x templates is 0. -/
theorem no_templates_still_creates_rule :
    (sampleGroup ["c1"] "Parallel" []).GroupPolicyTemplates = [] ∧
    3 * (upgradePlan (sampleGroup ["c1"] "Parallel" [])).length
      * (sampleGroup ["c1"] "Parallel" []).GroupPolicyTemplates.length = 0 ∧
    (Reconcile (sampleCluster [] (sampleGroup ["c1"] "Parallel" [])) ⟨"ns", "grp"⟩).2.creates = 1 ∧
    (Reconcile (sampleCluster [] (sampleGroup ["c1"] "Parallel" [])) ⟨"ns", "grp"⟩).2.objects.map
      Unstructured.GetName = ["grp-batch-1-placement-rule"] := by
  refine ⟨rfl, ?_⟩
  decide

/-- C7 (amended), at three sites taken one at a time with two templates on an empty server. -/
theorem reconcile_creates_bound_witness :
    (sampleCluster [] (sampleGroup ["c1", "c2", "c3"] "Serial"
      [sampleTemplate "pt1", sampleTemplate "pt2"])).fetchGroup ⟨"ns", "grp"⟩
      = .ok (sampleGroup ["c1", "c2", "c3"] "Serial" [sampleTemplate "pt1", sampleTemplate "pt2"]) ∧
    (Reconcile (sampleCluster [] (sampleGroup ["c1", "c2", "c3"] "Serial"
      [sampleTemplate "pt1", sampleTemplate "pt2"])) ⟨"ns", "grp"⟩).2.objects.length
      ≤ 0 + 3 * (1 + 2 * 2) ∧
    (Reconcile (sampleCluster [] (sampleGroup ["c1", "c2", "c3"] "Serial"
      [sampleTemplate "pt1", sampleTemplate "pt2"])) ⟨"ns", "grp"⟩).2.objects.length = 12 :=
  ⟨rfl,
    (reconcile_creates_bound
      (sampleCluster [] (sampleGroup ["c1", "c2", "c3"] "Serial"
        [sampleTemplate "pt1", sampleTemplate "pt2"]))
      ⟨"ns", "grp"⟩
      (sampleGroup ["c1", "c2", "c3"] "Serial" [sampleTemplate "pt1", sampleTemplate "pt2"])
      rfl).1,
    by decide⟩

/-! ## Idempotence -/

theorem setField_ownerReferences_key (u : Unstructured) (v : Value) :
    (u.setField v ["metadata", "ownerReferences"]).key = u.key := by
  have h1 : ("apiVersion" : String) ≠ "metadata" := by decide
  have h2 : ("kind" : String) ≠ "metadata" := by decide
  have h3 : ("name" : String) ≠ "ownerReferences" := by decide
  have h4 : ("namespace" : String) ≠ "ownerReferences" := by decide
  cases hm : mapGet u.object "metadata" with
  | none =>
    simp [Unstructured.setField, setNestedField, hm, Unstructured.key, Unstructured.GetName,
      Unstructured.GetNamespace, Unstructured.GetKind, Unstructured.GetAPIVersion, nestedString,
      nestedField, mapGet_mapSet_self, mapGet_mapSet_ne, h1, h2, h3, h4, mapGet]
  | some w =>
    cases w <;>
    simp [Unstructured.setField, setNestedField, hm, Unstructured.key, Unstructured.GetName,
      Unstructured.GetNamespace, Unstructured.GetKind, Unstructured.GetAPIVersion, nestedString,
      nestedField, mapGet_mapSet_self, mapGet_mapSet_ne, h1, h2, h3, h4]

theorem SetControllerReference_key (group : Group) (u u1 : Unstructured)
    (h : SetControllerReference group u = .ok u1) : u1.key = u.key := by
  unfold SetControllerReference at h
  split at h
  · cases h
  · simp only at h
    split at h
    · split at h
      · cases h; exact setField_ownerReferences_key u _
      · cases h
    · cases h; exact setField_ownerReferences_key u _

/-- When nothing controls the object yet and it sits in the Group's namespace, the controller
reference is accepted. -/
theorem SetControllerReference_ok (group : Group) (u : Unstructured)
    (hns : u.GetNamespace = group.Namespace) (hc : GetControllerOf u = none) :
    ∃ u1, SetControllerReference group u = .ok u1 := by
  unfold SetControllerReference
  rw [hns, hc]
  by_cases h : group.Namespace = "" <;> simp [h]

theorem faultFree_of_sameServer {c c1 : Cluster} (h : c.SameServer c1) (hf : c.FaultFree) :
    c1.FaultFree := by
  obtain ⟨h1, h2, _⟩ := h
  exact ⟨fun calls k => by rw [h1]; exact hf.1 calls k, fun calls u => by rw [h2]; exact hf.2 calls u⟩

/-- On a server without injected errors an accepted object is found or created. -/
theorem ensureObject_faultFree (group : Group) (gvk : GroupVersionKind) (obj obj1 : Unstructured)
    (c : Cluster) (hs : SetControllerReference group obj = .ok obj1)
    (hk : obj1.key = lookupKey gvk group.Namespace obj1.GetName) (hf : c.FaultFree) :
    (ensureObject group gvk obj c).1 = .ok () ∧
    (ensureObject group gvk obj c).2.holds (lookupKey gvk group.Namespace obj1.GetName) = true ∧
    (∀ k, c.holds k = true → (ensureObject group gvk obj c).2.holds k = true) ∧
    (c.holds (lookupKey gvk group.Namespace obj1.GetName) = true →
      (ensureObject group gvk obj c).2.objects = c.objects ∧
      (ensureObject group gvk obj c).2.creates = c.creates) := by
  unfold ensureObject
  simp only [hs, Cluster.Get]
  by_cases hh : c.holds (lookupKey gvk group.Namespace obj1.GetName) = true
  · have hge : c.getError (lookupKey gvk group.Namespace obj1.GetName) = none := by
      simp [Cluster.getError, hf.1, hh]
    simp only [hge]
    refine ⟨trivial, hh, fun k hk1 => hk1, fun _ => ⟨rfl, ?_⟩⟩
    simp [Cluster.logged, Cluster.creates, List.filter_append, Call.isCreate]
  · have hge : c.getError (lookupKey gvk group.Namespace obj1.GetName) = some .notFound := by
      simp [Cluster.getError, hf.1, hh]
    have hce : (c.logged (.get (lookupKey gvk group.Namespace obj1.GetName))).createError obj1
        = none := by
      simp only [Cluster.createError, Cluster.logged]
      rw [hf.2]
      simp only [Cluster.holds] at hh ⊢
      rw [hk]
      simp [hh]
    simp only [hge, Err.IsNotFound, if_true, Cluster.Create, hce]
    refine ⟨trivial, ?_, fun k hk1 => ?_, fun h => absurd h hh⟩
    · simp only [Cluster.holds, Cluster.logged, List.any_append, List.any_cons, List.any_nil, hk]
      simp
    · simp only [Cluster.holds, Cluster.logged, List.any_append] at hk1 ⊢
      simp [hk1]

theorem rule_step_good (group : Group) (b : Int) (sites : List String) :
    (Step.rule b sites).Good group := by
  obtain ⟨u1, hu1⟩ := SetControllerReference_ok group (newPlacementRule group b sites) rfl rfl
  exact ⟨_, u1, rfl, hu1, by rw [SetControllerReference_key group _ _ hu1]; rfl⟩

theorem binding_step_good (group : Group) (b : Int) (o : Object) :
    (Step.binding b ⟨some o⟩).Good group := by
  obtain ⟨pb, hpb⟩ : ∃ pb, newPlacementBinding group b ⟨some o⟩ = some pb := ⟨_, rfl⟩
  have hns : pb.GetNamespace = group.Namespace := by cases hpb; rfl
  have hc : GetControllerOf pb = none := by cases hpb; rfl
  obtain ⟨u1, hu1⟩ := SetControllerReference_ok group pb hns hc
  refine ⟨pb, u1, hpb, hu1, ?_⟩
  rw [SetControllerReference_key group _ _ hu1]
  cases hpb
  rfl

theorem policy_step_good (group : Group) (b : Int) (t : GroupPolicyTemplate)
    (h : wellFormedTemplate t = true) : (Step.policy b t).Good group := by
  obtain ⟨od⟩ := t
  cases od with
  | none => simp [wellFormedTemplate] at h
  | some o =>
    simp only [wellFormedTemplate, Bool.and_eq_true, decide_eq_true_eq, Option.isNone_iff_eq_none] at h
    obtain ⟨⟨⟨⟨hmd, hsp⟩, hkind⟩, hav⟩, hctl⟩ := h
    obtain ⟨p, hp, _, _, hns, _, htop, hmeta, _⟩ :=
      newPolicy_fields group b o hmd hsp
    have hc : GetControllerOf p = none := by
      have := hmeta "ownerReferences" (by decide) (by decide)
      simp only [GetControllerOf, Unstructured.GetOwnerReferences, this] at hctl ⊢
      exact hctl
    obtain ⟨u1, hu1⟩ := SetControllerReference_ok group p hns hc
    have hobj : (Step.policy b ⟨some o⟩).object group = some p := by
      simp [Step.object, hp]
    refine ⟨p, u1, hobj, hu1, ?_⟩
    rw [SetControllerReference_key group _ _ hu1]
    have hk := htop "kind" (by decide) (by decide)
    have ha := htop "apiVersion" (by decide) (by decide)
    simp only [Step.key, hobj, Unstructured.key, lookupKey, Step.gvk, hns]
    simp only [Unstructured.GetKind, Unstructured.GetAPIVersion, nestedString, nestedField] at hkind hav ⊢
    rw [hk, ha, hkind, hav]

theorem good_key (group : Group) (s : Step) (obj obj1 : Unstructured)
    (ho : s.object group = some obj) (hs : SetControllerReference group obj = .ok obj1) :
    s.key group = lookupKey s.gvk group.Namespace obj1.GetName := by
  have h1 : obj1.GetName = obj.GetName := congrArg ResourceKey.Name (SetControllerReference_key group _ _ hs)
  simp [Step.key, ho, h1]

/-- On a server without injected errors, a run of good steps succeeds, keeps what was held and
ends with the key of every step held. -/
theorem runSteps_faultFree (group : Group) (steps : List Step) :
    ∀ c : Cluster, (∀ s ∈ steps, s.Good group) → c.FaultFree →
      (runSteps group steps c).1 = .ok () ∧
      (∀ k, c.holds k = true → (runSteps group steps c).2.holds k = true) ∧
      (∀ s ∈ steps, (runSteps group steps c).2.holds (s.key group) = true) := by
  induction steps with
  | nil => intro c _ _; exact ⟨rfl, fun k hk => hk, fun s hs => by simp at hs⟩
  | cons s steps ih =>
    intro c hgood hf
    obtain ⟨obj, obj1, ho, hs, hk⟩ := hgood s (List.mem_cons_self _ _)
    have hkey := good_key group s obj obj1 ho hs
    have hstep := ensureObject_faultFree group s.gvk obj obj1 c hs (hkey ▸ hk) hf
    have hsame := (ensureObject_bound group s.gvk obj c).2.2
    simp only [runSteps, runStep_eq, ho]
    rcases hr : ensureObject group s.gvk obj c with ⟨r, c1⟩
    rw [hr] at hstep hsame
    simp only at hstep hsame
    obtain ⟨h1, h2, h3, _⟩ := hstep
    subst h1
    simp only
    obtain ⟨i1, i2, i3⟩ := ih c1 (fun s hs => hgood s (List.mem_cons_of_mem _ hs))
      (faultFree_of_sameServer hsame hf)
    refine ⟨i1, fun k hk1 => i2 k (h3 k hk1), fun s1 hs1 => ?_⟩
    rcases List.mem_cons.1 hs1 with rfl | hmem
    · exact i2 _ (hkey ▸ h2)
    · exact i3 s1 hmem

/-- On a server without injected errors that already holds the key of every step, a run of good
steps succeeds, stores nothing and issues no create. -/
theorem runSteps_settled (group : Group) (steps : List Step) :
    ∀ c : Cluster, (∀ s ∈ steps, s.Good group) → c.FaultFree →
      (∀ s ∈ steps, c.holds (s.key group) = true) →
      (runSteps group steps c).1 = .ok () ∧
      (runSteps group steps c).2.objects = c.objects ∧
      (runSteps group steps c).2.creates = c.creates := by
  induction steps with
  | nil => intro c _ _ _; exact ⟨rfl, rfl, rfl⟩
  | cons s steps ih =>
    intro c hgood hf hheld
    obtain ⟨obj, obj1, ho, hs, hk⟩ := hgood s (List.mem_cons_self _ _)
    have hkey := good_key group s obj obj1 ho hs
    have hstep := ensureObject_faultFree group s.gvk obj obj1 c hs (hkey ▸ hk) hf
    have hsame := (ensureObject_bound group s.gvk obj c).2.2
    simp only [runSteps, runStep_eq, ho]
    rcases hr : ensureObject group s.gvk obj c with ⟨r, c1⟩
    rw [hr] at hstep hsame
    simp only at hstep hsame
    obtain ⟨h1, _, h3, h4⟩ := hstep
    subst h1
    simp only
    obtain ⟨j1, j2⟩ := h4 (hkey ▸ hheld s (List.mem_cons_self _ _))
    obtain ⟨i1, i2, i3⟩ := ih c1 (fun s hs => hgood s (List.mem_cons_of_mem _ hs))
      (faultFree_of_sameServer hsame hf)
      (fun s1 hs1 => h3 _ (hheld s1 (List.mem_cons_of_mem _ hs1)))
    exact ⟨i1, i2.trans j1, i3.trans j2⟩

theorem templateSteps_good (group : Group) (b : Int) (ts : List GroupPolicyTemplate)
    (h : ∀ t ∈ ts, wellFormedTemplate t = true) : ∀ s ∈ templateSteps b ts, s.Good group := by
  induction ts with
  | nil => intro s hs; simp [templateSteps] at hs
  | cons t ts ih =>
    intro s hs
    simp only [templateSteps, List.mem_cons] at hs
    have ht := h t (List.mem_cons_self _ _)
    rcases hs with rfl | rfl | hs
    · exact policy_step_good group b t ht
    · obtain ⟨od⟩ := t
      cases od with
      | none => simp [wellFormedTemplate] at ht
      | some o => exact binding_step_good group b o
    · exact ih (fun t1 h1 => h t1 (List.mem_cons_of_mem _ h1)) s hs

theorem planSteps_good (group : Group) (ts : List GroupPolicyTemplate)
    (plan : List (Int × List String)) (h : ∀ t ∈ ts, wellFormedTemplate t = true) :
    ∀ s ∈ planSteps ts plan, s.Good group := by
  induction plan with
  | nil => intro s hs; simp [planSteps] at hs
  | cons p plan ih =>
    obtain ⟨b, sites⟩ := p
    intro s hs
    simp only [planSteps, List.cons_append, List.mem_cons, List.mem_append] at hs
    rcases hs with rfl | hs | hs
    · exact rule_step_good group b sites
    · exact templateSteps_good group b ts h s hs
    · exact ih s hs

/-- C5: for a Group whose templates are well formed (each unmarshals to a Policy of the expected
API version with a map-valued `spec`, a `metadata` that is absent or a map, and
no controller of its own) and a server that injects no error, `Reconcile`
succeeds, and running it a second time succeeds too, leaves exactly the stored
objects of the first run, and issues no create. -/
theorem reconcile_idempotent (c : Cluster) (req : Request) (group : Group)
    (hg : c.fetchGroup req = .ok group)
    (hwf : ∀ t ∈ group.GroupPolicyTemplates, wellFormedTemplate t = true)
    (hf : c.FaultFree) :
    (Reconcile c req).1 = .ok () ∧
    (Reconcile (Reconcile c req).2 req).1 = .ok () ∧
    (Reconcile (Reconcile c req).2 req).2.objects = (Reconcile c req).2.objects ∧
    (Reconcile (Reconcile c req).2 req).2.creates = (Reconcile c req).2.creates := by
  have hgood := planSteps_good group group.GroupPolicyTemplates (indexedPlan group) hwf
  have hr : ∀ c1 : Cluster, c1.fetchGroup req = .ok group → Reconcile c1 req
      = runSteps group (planSteps group.GroupPolicyTemplates (indexedPlan group)) c1 := by
    intro c1 h1
    simp [Reconcile, h1, reconcileBatches_eq_runSteps]
  have hsame := (runSteps_bound group (planSteps group.GroupPolicyTemplates (indexedPlan group)) c).2.2
  obtain ⟨h1, _, h3⟩ := runSteps_faultFree group _ c hgood hf
  rw [hr c hg]
  have hg2 : (runSteps group (planSteps group.GroupPolicyTemplates (indexedPlan group)) c).2.fetchGroup
      req = .ok group := by rw [hsame.2.2]; exact hg
  rw [hr _ hg2]
  obtain ⟨k1, k2, k3⟩ := runSteps_settled group _ _ hgood (faultFree_of_sameServer hsame hf) h3
  exact ⟨h1, k1, k2, k3⟩

/-- C5, at two sites taken one at a time with two templates on an empty server. -/
theorem reconcile_idempotent_witness :
    (sampleCluster [] (sampleGroup ["c1", "c2"] "Serial"
      [sampleTemplate "pt1", sampleTemplate "pt2"])).fetchGroup ⟨"ns", "grp"⟩
      = .ok (sampleGroup ["c1", "c2"] "Serial" [sampleTemplate "pt1", sampleTemplate "pt2"]) ∧
    (∀ t ∈ (sampleGroup ["c1", "c2"] "Serial"
      [sampleTemplate "pt1", sampleTemplate "pt2"]).GroupPolicyTemplates,
      wellFormedTemplate t = true) ∧
    (sampleCluster [] (sampleGroup ["c1", "c2"] "Serial"
      [sampleTemplate "pt1", sampleTemplate "pt2"])).FaultFree ∧
    (Reconcile (sampleCluster [] (sampleGroup ["c1", "c2"] "Serial"
      [sampleTemplate "pt1", sampleTemplate "pt2"])) ⟨"ns", "grp"⟩).2.objects.length = 8 ∧
    (Reconcile (Reconcile (sampleCluster [] (sampleGroup ["c1", "c2"] "Serial"
      [sampleTemplate "pt1", sampleTemplate "pt2"])) ⟨"ns", "grp"⟩).2 ⟨"ns", "grp"⟩).2.objects
      = (Reconcile (sampleCluster [] (sampleGroup ["c1", "c2"] "Serial"
        [sampleTemplate "pt1", sampleTemplate "pt2"])) ⟨"ns", "grp"⟩).2.objects ∧
    (Reconcile (Reconcile (sampleCluster [] (sampleGroup ["c1", "c2"] "Serial"
      [sampleTemplate "pt1", sampleTemplate "pt2"])) ⟨"ns", "grp"⟩).2 ⟨"ns", "grp"⟩).2.creates
      = (Reconcile (sampleCluster [] (sampleGroup ["c1", "c2"] "Serial"
        [sampleTemplate "pt1", sampleTemplate "pt2"])) ⟨"ns", "grp"⟩).2.creates :=
  have hwf : ∀ t ∈ (sampleGroup ["c1", "c2"] "Serial"
      [sampleTemplate "pt1", sampleTemplate "pt2"]).GroupPolicyTemplates,
      wellFormedTemplate t = true := by
    intro t ht
    simp only [sampleGroup, List.mem_cons, List.mem_singleton, List.not_mem_nil, or_false] at ht
    rcases ht with rfl | rfl <;> decide
  have hff : (sampleCluster [] (sampleGroup ["c1", "c2"] "Serial"
      [sampleTemplate "pt1", sampleTemplate "pt2"])).FaultFree :=
    ⟨fun _ _ => rfl, fun _ _ => rfl⟩
  have h := reconcile_idempotent
    (sampleCluster [] (sampleGroup ["c1", "c2"] "Serial"
      [sampleTemplate "pt1", sampleTemplate "pt2"]))
    ⟨"ns", "grp"⟩
    (sampleGroup ["c1", "c2"] "Serial" [sampleTemplate "pt1", sampleTemplate "pt2"])
    rfl hwf hff
  ⟨rfl, hwf, hff, by decide, h.2.2.1, h.2.2.2⟩

/-! ## Planner properties -/

/-- C16: for every site list (empty or with duplicates) and every strategy type, concatenating
the batches of the upgrade plan in order gives back the site list. -/
theorem plan_covers_sites (group : Group) : (upgradePlan group).flatten = group.Sites := by
  by_cases h : group.UpgradeStrategyType = "Parallel"
  · simp [upgradePlan_parallel group h]
  · rw [upgradePlan_sequential group h]
    induction group.Sites with
    | nil => rfl
    | cons s rest ih => simp [ih]

/-- C17: for a template that parses to an object whose `spec` is absent or not a map, `newPolicy`
panics at the type assertion and returns no policy instance, and `ensurePolicy`
panics with the server untouched: it issues neither its get nor its create. -/
theorem newPolicy_panics_without_spec_map (group : Group) (b : Int) (o : Object)
    (h : specIsMap o = false) :
    newPolicy group b ⟨some o⟩ = .panic ∧
    ∀ c : Cluster, ensurePolicy group b ⟨some o⟩ c = (.panic, c) := by
  have hp : newPolicy group b ⟨some o⟩ = .panic := by
    simp only [newPolicy]
    rw [spec_after_rename]
    unfold specIsMap at h
    cases hm : mapGet o "spec" with
    | none => rfl
    | some v => cases v <;> simp_all
  exact ⟨hp, fun c => by simp [ensurePolicy, hp]⟩


theorem mem_planSteps_rule (ts : List GroupPolicyTemplate) (plan : List (Int × List String))
    (b : Int) (sites : List String) (h : (b, sites) ∈ plan) :
    Step.rule b sites ∈ planSteps ts plan := by
  induction plan with
  | nil => simp at h
  | cons p plan ih =>
    obtain ⟨b1, s1⟩ := p
    simp only [planSteps, List.cons_append, List.mem_cons, List.mem_append]
    rcases List.mem_cons.1 h with h1 | h1
    · cases h1; exact Or.inl rfl
    · exact Or.inr (Or.inr (ih h1))

theorem reconcile_eq_runSteps (c : Cluster) (req : Request) (group : Group)
    (hg : c.fetchGroup req = .ok group) :
    Reconcile c req
      = runSteps group (planSteps group.GroupPolicyTemplates (indexedPlan group)) c := by
  simp [Reconcile, hg, reconcileBatches_eq_runSteps]

/-- On a server without injected errors an accepted object that is not held yet is appended to
the stored objects. -/
theorem ensureObject_faultFree_creates (group : Group) (gvk : GroupVersionKind)
    (obj obj1 : Unstructured) (c : Cluster) (hs : SetControllerReference group obj = .ok obj1)
    (hk : obj1.key = lookupKey gvk group.Namespace obj1.GetName) (hf : c.FaultFree)
    (hh : c.holds (lookupKey gvk group.Namespace obj1.GetName) = false) :
    (ensureObject group gvk obj c).1 = .ok () ∧
    (ensureObject group gvk obj c).2.objects = c.objects ++ [obj1] ∧
    (ensureObject group gvk obj c).2.calls
      = c.calls ++ [.get (lookupKey gvk group.Namespace obj1.GetName), .create obj1] := by
  unfold ensureObject
  simp only [hs, Cluster.Get]
  have hge : c.getError (lookupKey gvk group.Namespace obj1.GetName) = some .notFound := by
    simp [Cluster.getError, hf.1, hh]
  have hce : (c.logged (.get (lookupKey gvk group.Namespace obj1.GetName))).createError obj1
      = none := by
    simp only [Cluster.createError, Cluster.logged]
    rw [hf.2]
    simp only [Cluster.holds] at hh ⊢
    rw [hk]
    simp [hh]
  simp only [hge, Err.IsNotFound, if_true, Cluster.Create, hce]
  exact ⟨trivial, rfl, by simp [Cluster.logged]⟩

theorem policyName_empty_template (group : Group) (b : Int) :
    policyName group b "" = group.Name ++ "-batch-" ++ Itoa b ++ "--policy" := by
  apply String.ext
  simp [policyName, String.data_append, List.append_assoc]

/-- C14 (amended): for a well-formed template that carries no name, `newPolicy` does return a
policy instance, named group-batch-index--policy (the template name is taken
as the empty string), and `ensurePolicy`, on a server that injects no error and
does not hold that name yet, returns success and stores that instance. -/
theorem nameless_template_is_materialised (group : Group) (b : Int) (o : Object) (c : Cluster)
    (hwf : wellFormedTemplate ⟨some o⟩ = true) (hname : Unstructured.GetName ⟨o⟩ = "")
    (hf : c.FaultFree)
    (hnew : c.holds (lookupKey policyGVK group.Namespace
      (group.Name ++ "-batch-" ++ Itoa b ++ "--policy")) = false) :
    ∃ p p1 : Unstructured, newPolicy group b ⟨some o⟩ = .ok (some p) ∧
      p.GetName = group.Name ++ "-batch-" ++ Itoa b ++ "--policy" ∧
      p1.GetName = group.Name ++ "-batch-" ++ Itoa b ++ "--policy" ∧
      (ensurePolicy group b ⟨some o⟩ c).1 = .ok () ∧
      (ensurePolicy group b ⟨some o⟩ c).2.objects = c.objects ++ [p1] := by
  obtain ⟨p, p1, hobj, hset, hkey⟩ := policy_step_good group b ⟨some o⟩ hwf
  have hmd : metadataWritable o = true := by
    simp only [wellFormedTemplate, Bool.and_eq_true] at hwf
    exact hwf.1.1.1.1
  have hp : newPolicy group b ⟨some o⟩ = .ok (some p) := by
    simp only [Step.object] at hobj
    cases hn : newPolicy group b ⟨some o⟩ with
    | ok r =>
      cases r with
      | none => simp [hn] at hobj
      | some q => simp only [hn, Option.some.injEq] at hobj; rw [hobj]
    | error e => simp [hn] at hobj
    | panic => simp [hn] at hobj
  have hpn : p.GetName = group.Name ++ "-batch-" ++ Itoa b ++ "--policy" := by
    rw [newPolicy_GetName group b o p hmd hp, hname, policyName_empty_template]
  have hp1n : p1.GetName = p.GetName :=
    congrArg ResourceKey.Name (SetControllerReference_key group _ _ hset)
  have hk := good_key group (Step.policy b ⟨some o⟩) p p1 hobj hset
  have hk2 : p1.key = lookupKey policyGVK group.Namespace p1.GetName := by
    rw [hkey, hk]; rfl
  have hcr := ensureObject_faultFree_creates group policyGVK p p1 c hset hk2 hf
    (by rw [hp1n, hpn]; exact hnew)
  refine ⟨p, p1, hp, hpn, by rw [hp1n, hpn], ?_, ?_⟩
  · simp only [ensurePolicy, hp]; exact hcr.1
  · simp only [ensurePolicy, hp]; exact hcr.2.1


theorem rule_step_key (group : Group) (b : Int) (sites : List String) :
    (Step.rule b sites).key group
      = lookupKey placementRuleGVK group.Namespace
          (group.Name ++ "-batch-" ++ Itoa b ++ "-placement-rule") := by
  rw [← placementRuleName_format]; rfl

/-- C15 (amended): for a Group whose strategy type is anything but `Parallel`, recognised or
not, `Reconcile` plans one single-site batch per site and, with well-formed
templates on a server that injects no error, returns success with the
PlacementRule of every batch 1, 2, ..., N held by the server. -/
theorem unrecognised_strategy_is_sequential (c : Cluster) (req : Request) (group : Group)
    (hg : c.fetchGroup req = .ok group) (hs : group.UpgradeStrategyType ≠ "Parallel")
    (hwf : ∀ t ∈ group.GroupPolicyTemplates, wellFormedTemplate t = true) (hf : c.FaultFree) :
    upgradePlan group = group.Sites.map (fun site => [site]) ∧
    (Reconcile c req).1 = .ok () ∧
    ∀ i : Nat, i < group.Sites.length →
      (Reconcile c req).2.holds (lookupKey placementRuleGVK group.Namespace
        (group.Name ++ "-batch-" ++ Itoa ((i : Int) + 1) ++ "-placement-rule")) = true := by
  have hgood := planSteps_good group group.GroupPolicyTemplates (indexedPlan group) hwf
  obtain ⟨h1, _, h3⟩ := runSteps_faultFree group _ c hgood hf
  rw [reconcile_eq_runSteps c req group hg]
  refine ⟨upgradePlan_sequential group hs, h1, fun i hi => ?_⟩
  have hidx := indexedPlan_sequential group hs i
  rw [List.getElem?_eq_getElem hi] at hidx
  have hmem : ((i : Int) + 1, [group.Sites[i]]) ∈ indexedPlan group :=
    List.getElem?_mem hidx
  have := h3 _ (mem_planSteps_rule group.GroupPolicyTemplates _ _ _ hmem)
  rwa [rule_step_key] at this

/-- C19: for a fixed Group and batch indices of at least one, the name group-batch-index-
templatename-policy determines the batch index and the template name, whatever
characters the template name contains; the same holds for the names of the
objects `newPolicy` returns for templates whose `metadata` is absent or a map. -/
theorem policy_instance_name_injective (group : Group) (b1 b2 : Int)
    (h1 : 1 ≤ b1) (h2 : 1 ≤ b2) :
    (∀ n1 n2 : String,
      group.Name ++ "-batch-" ++ Itoa b1 ++ "-" ++ n1 ++ "-policy"
        = group.Name ++ "-batch-" ++ Itoa b2 ++ "-" ++ n2 ++ "-policy" → b1 = b2 ∧ n1 = n2) ∧
    (∀ (o1 o2 : Object) (p1 p2 : Unstructured),
      metadataWritable o1 = true → metadataWritable o2 = true →
      newPolicy group b1 ⟨some o1⟩ = .ok (some p1) → newPolicy group b2 ⟨some o2⟩ = .ok (some p2) →
      p1.GetName = p2.GetName →
      b1 = b2 ∧ Unstructured.GetName ⟨o1⟩ = Unstructured.GetName ⟨o2⟩) := by
  refine ⟨fun n1 n2 h => ?_, fun o1 o2 p1 p2 hm1 hm2 hp1 hp2 h => ?_⟩
  · rw [← policyName_format, ← policyName_format] at h
    exact policyName_inj_same_group group group b1 b2 n1 n2 rfl h1 h2 h
  · rw [newPolicy_GetName group b1 o1 p1 hm1 hp1, newPolicy_GetName group b2 o2 p2 hm2 hp2] at h
    exact policyName_inj_same_group group group b1 b2 _ _ rfl h1 h2 h


/-! ## No drift correction -/

theorem ensureObject_found (group : Group) (gvk : GroupVersionKind) (obj obj1 : Unstructured)
    (c : Cluster) (hs : SetControllerReference group obj = .ok obj1)
    (hh : c.holds (lookupKey gvk group.Namespace obj1.GetName) = true)
    (hf : c.getFault c.calls (lookupKey gvk group.Namespace obj1.GetName) = none) :
    ensureObject group gvk obj c
      = (.ok (), c.logged (.get (lookupKey gvk group.Namespace obj1.GetName))) := by
  unfold ensureObject
  have hge : c.getError (lookupKey gvk group.Namespace obj1.GetName) = none := by
    simp [Cluster.getError, hf, hh]
  simp only [hs, Cluster.Get, hge]

theorem SetControllerReference_GetName (group : Group) (u u1 : Unstructured)
    (h : SetControllerReference group u = .ok u1) : u1.GetName = u.GetName :=
  congrArg ResourceKey.Name (SetControllerReference_key group u u1 h)

theorem logged_get_creates (c : Cluster) (k : ResourceKey) :
    (c.logged (.get k)).creates = c.creates := by
  simp [Cluster.logged, Cluster.creates, List.filter_append, Call.isCreate]

/-- C11 (amended): when the server holds an object under the key an ensure operation looks up
and answers the get, `ensurePlacementRule` and `ensurePlacementBinding` (for a
template that parses) return success, and so does `ensurePolicy` provided the
policy instance accepts the Group as its controller; the only call issued is
that get, so nothing is created and the stored objects are unchanged, whatever
the body of the stored object. -/
theorem ensure_leaves_existing (group : Group) (batch : Int) (sites : List String)
    (t : GroupPolicyTemplate) (c : Cluster) :
    (c.holds (lookupKey placementRuleGVK group.Namespace
        (newPlacementRule group batch sites).GetName) = true →
      c.getFault c.calls (lookupKey placementRuleGVK group.Namespace
        (newPlacementRule group batch sites).GetName) = none →
      ensurePlacementRule group batch sites c
        = (.ok (), c.logged (.get (lookupKey placementRuleGVK group.Namespace
            (newPlacementRule group batch sites).GetName)))) ∧
    (∀ pb : Unstructured, newPlacementBinding group batch t = some pb →
      c.holds (lookupKey placementBindingGVK group.Namespace pb.GetName) = true →
      c.getFault c.calls (lookupKey placementBindingGVK group.Namespace pb.GetName) = none →
      ensurePlacementBinding group batch t c
        = (.ok (), c.logged (.get (lookupKey placementBindingGVK group.Namespace pb.GetName)))) ∧
    (∀ pol pol1 : Unstructured, newPolicy group batch t = .ok (some pol) →
      SetControllerReference group pol = .ok pol1 →
      c.holds (lookupKey policyGVK group.Namespace pol.GetName) = true →
      c.getFault c.calls (lookupKey policyGVK group.Namespace pol.GetName) = none →
      ensurePolicy group batch t c
        = (.ok (), c.logged (.get (lookupKey policyGVK group.Namespace pol.GetName)))) ∧
    (∀ k : ResourceKey, (c.logged (.get k)).objects = c.objects ∧
      (c.logged (.get k)).creates = c.creates) := by
  refine ⟨fun hh hf => ?_, fun pb hpb hh hf => ?_, fun pol pol1 hp hs hh hf => ?_,
    fun k => ⟨rfl, logged_get_creates c k⟩⟩
  · obtain ⟨obj, obj1, ho, hs, _⟩ := rule_step_good group batch sites
    simp only [Step.object, Option.some.injEq] at ho
    subst ho
    have hn := SetControllerReference_GetName group _ _ hs
    rw [← hn] at hh hf ⊢
    exact ensureObject_found group placementRuleGVK _ obj1 c hs hh hf
  · obtain ⟨od⟩ := t
    cases od with
    | none => simp [newPlacementBinding] at hpb
    | some o =>
      obtain ⟨obj, obj1, ho, hs, _⟩ := binding_step_good group batch o
      simp only [Step.object] at ho
      rw [hpb, Option.some.injEq] at ho
      subst ho
      have hn := SetControllerReference_GetName group _ _ hs
      rw [← hn] at hh hf ⊢
      simp only [ensurePlacementBinding, hpb]
      exact ensureObject_found group placementBindingGVK _ obj1 c hs hh hf
  · have hn := SetControllerReference_GetName group _ _ hs
    rw [← hn] at hh hf ⊢
    simp only [ensurePolicy, hp]
    exact ensureObject_found group policyGVK _ pol1 c hs hh hf


/-! ## Ownership -/

theorem extractOwnerReferences_values (refs : List OwnerReference) :
    extractOwnerReferences (refs.map ownerReferenceValue) = some refs := by
  induction refs with
  | nil => rfl
  | cons r rs ih =>
    obtain ⟨av, kd, nm, uid, ctl, bod⟩ := r
    simp only [List.map_cons, ownerReferenceValue, extractOwnerReferences, ih, Option.map_some']
    cases ctl <;> cases bod <;> rfl

theorem upsertOwnerRef_controller (ref : OwnerReference) (hc : ref.Controller = some true) :
    ∀ refs : List OwnerReference,
      (∀ e, refs.find? (fun r => r.Controller = some true) = some e → referSameObject e ref = true) →
      (upsertOwnerRef ref refs).find? (fun r => r.Controller = some true) = some ref := by
  intro refs
  induction refs with
  | nil => intro _; simp [upsertOwnerRef, List.find?, hc]
  | cons r rs ih =>
    intro h
    by_cases hsame : referSameObject r ref = true
    · simp [upsertOwnerRef, hsame, List.find?, hc]
    · have hnc : ¬ r.Controller = some true := by
        intro hrc
        exact hsame (h r (by simp [List.find?, hrc]))
      simp only [upsertOwnerRef, hsame, List.find?, hnc, decide_False]
      exact ih (fun e he => h e (by simp only [List.find?, hnc, decide_False]; exact he))

theorem metadata_of_namespace (u : Unstructured) (h : u.GetNamespace ≠ "") :
    ∃ md, mapGet u.object "metadata" = some (.map md) := by
  unfold Unstructured.GetNamespace nestedString nestedField at h
  cases hm : mapGet u.object "metadata" with
  | none => simp [hm] at h
  | some v => cases v <;> simp_all

theorem GetOwnerReferences_SetOwnerReferences (u : Unstructured) (refs : List OwnerReference)
    (md : Object) (hmd : mapGet u.object "metadata" = some (.map md)) :
    (u.SetOwnerReferences refs).GetOwnerReferences = refs := by
  simp [Unstructured.SetOwnerReferences, Unstructured.setField, setNestedField, hmd,
    Unstructured.GetOwnerReferences, nestedField, mapGet_mapSet_self,
    extractOwnerReferences_values]

/-- A namespaced Group that is accepted as controller is the controller recorded on the object. -/
theorem SetControllerReference_controller (group : Group) (u u1 : Unstructured)
    (hns : group.Namespace ≠ "") (h : SetControllerReference group u = .ok u1) :
    GetControllerOf u1 = some (controllerRef group) := by
  unfold SetControllerReference at h
  split at h
  · cases h
  · rename_i hv
    have hne : u.GetNamespace ≠ "" := by
      intro h0
      exact hv ⟨hns, Or.inl h0⟩
    obtain ⟨md, hmd⟩ := metadata_of_namespace u hne
    simp only at h
    split at h
    · rename_i existing hex
      split at h
      · rename_i hsame
        cases h
        unfold GetControllerOf
        rw [GetOwnerReferences_SetOwnerReferences u _ md hmd]
        apply upsertOwnerRef_controller _ rfl
        intro e he
        unfold GetControllerOf at hex
        rw [hex] at he
        cases he
        exact hsame
      · cases h
    · rename_i hex
      cases h
      unfold GetControllerOf
      rw [GetOwnerReferences_SetOwnerReferences u _ md hmd]
      apply upsertOwnerRef_controller _ rfl
      intro e he
      unfold GetControllerOf at hex
      rw [hex] at he
      cases he

/-- What one ensure call adds to the log and to the store. -/
theorem ensureObject_trace (group : Group) (gvk : GroupVersionKind) (obj : Unstructured)
    (c : Cluster) :
    ∃ (extra : List Call) (added : List Unstructured),
      (ensureObject group gvk obj c).2.calls = c.calls ++ extra ∧
      (ensureObject group gvk obj c).2.objects = c.objects ++ added ∧
      (∀ u, Call.create u ∈ extra → SetControllerReference group obj = .ok u) ∧
      (∀ u, u ∈ added → SetControllerReference group obj = .ok u) := by
  unfold ensureObject
  cases hs : SetControllerReference group obj with
  | error e => exact ⟨[], [], by simp, by simp, by simp, by simp⟩
  | ok obj1 =>
    simp only [Cluster.Get]
    cases c.getError (lookupKey gvk group.Namespace obj1.GetName) with
    | none => exact ⟨[.get _], [], rfl, by simp [Cluster.logged], by simp, by simp⟩
    | some err =>
      by_cases hnf : err.IsNotFound = true
      · simp only [hnf, if_true, Cluster.Create]
        cases (c.logged (.get (lookupKey gvk group.Namespace obj1.GetName))).createError obj1 with
        | some e =>
          exact ⟨[.get (lookupKey gvk group.Namespace obj1.GetName), .create obj1], [],
            by simp [Cluster.logged], by simp [Cluster.logged], by simp, by simp⟩
        | none =>
          exact ⟨[.get (lookupKey gvk group.Namespace obj1.GetName), .create obj1], [obj1],
            by simp [Cluster.logged], by simp [Cluster.logged], by simp, by simp⟩
      · simp only [hnf]
        exact ⟨[.get _], [], rfl, by simp [Cluster.logged], by simp, by simp⟩

theorem runStep_trace (group : Group) (s : Step) (c : Cluster) :
    ∃ (extra : List Call) (added : List Unstructured),
      (runStep group s c).2.calls = c.calls ++ extra ∧
      (runStep group s c).2.objects = c.objects ++ added ∧
      (∀ u, Call.create u ∈ extra → s.accepted group = some u) ∧
      (∀ u, u ∈ added → s.accepted group = some u) := by
  rw [runStep_eq]
  cases ho : s.object group with
  | none => exact ⟨[], [], by simp, by simp, by simp, by simp⟩
  | some obj =>
    obtain ⟨extra, added, h1, h2, h3, h4⟩ := ensureObject_trace group s.gvk obj c
    refine ⟨extra, added, h1, h2, fun u hu => ?_, fun u hu => ?_⟩
    · simp [Step.accepted, ho, h3 u hu]
    · simp [Step.accepted, ho, h4 u hu]

theorem runSteps_trace (group : Group) (steps : List Step) :
    ∀ c : Cluster, ∃ (extra : List Call) (added : List Unstructured),
      (runSteps group steps c).2.calls = c.calls ++ extra ∧
      (runSteps group steps c).2.objects = c.objects ++ added ∧
      (∀ u, Call.create u ∈ extra → ∃ s ∈ steps, s.accepted group = some u) ∧
      (∀ u, u ∈ added → ∃ s ∈ steps, s.accepted group = some u) := by
  induction steps with
  | nil => intro c; exact ⟨[], [], by simp [runSteps], by simp [runSteps], by simp, by simp⟩
  | cons s steps ih =>
    intro c
    obtain ⟨e1, a1, h1, h2, h3, h4⟩ := runStep_trace group s c
    simp only [runSteps]
    rcases hr : runStep group s c with ⟨r, c1⟩
    rw [hr] at h1 h2
    simp only at h1 h2
    cases r with
    | ok u0 =>
      obtain ⟨e2, a2, k1, k2, k3, k4⟩ := ih c1
      refine ⟨e1 ++ e2, a1 ++ a2, by simp [k1, h1], by simp [k2, h2], fun u hu => ?_,
        fun u hu => ?_⟩
      · rcases List.mem_append.1 hu with hu | hu
        · exact ⟨s, List.mem_cons_self _ _, h3 u hu⟩
        · obtain ⟨s1, hs1, hacc⟩ := k3 u hu
          exact ⟨s1, List.mem_cons_of_mem _ hs1, hacc⟩
      · rcases List.mem_append.1 hu with hu | hu
        · exact ⟨s, List.mem_cons_self _ _, h4 u hu⟩
        · obtain ⟨s1, hs1, hacc⟩ := k4 u hu
          exact ⟨s1, List.mem_cons_of_mem _ hs1, hacc⟩
    | error e =>
      exact ⟨e1, a1, h1, h2, fun u hu => ⟨s, List.mem_cons_self _ _, h3 u hu⟩,
        fun u hu => ⟨s, List.mem_cons_self _ _, h4 u hu⟩⟩
    | panic =>
      exact ⟨e1, a1, h1, h2, fun u hu => ⟨s, List.mem_cons_self _ _, h3 u hu⟩,
        fun u hu => ⟨s, List.mem_cons_self _ _, h4 u hu⟩⟩

theorem accepted_controller (group : Group) (s : Step) (u : Unstructured)
    (hns : group.Namespace ≠ "") (h : s.accepted group = some u) :
    GetControllerOf u = some (controllerRef group) := by
  unfold Step.accepted at h
  cases ho : s.object group with
  | none => simp [ho] at h
  | some obj =>
    simp only [ho] at h
    cases hs : SetControllerReference group obj with
    | error e => simp [hs] at h
    | ok obj1 =>
      simp only [hs, Option.some.injEq] at h
      subst h
      exact SetControllerReference_controller group obj obj1 hns hs

/-- C12: for a Group in a namespace (a Group is a namespaced resource) and every server state,
every object a `Reconcile` pass hands to create, and every object it adds to
the store, carries the controller owner reference to that Group. -/
theorem created_resources_are_owned (c : Cluster) (req : Request) (group : Group)
    (hg : c.fetchGroup req = .ok group) (hns : group.Namespace ≠ "") :
    ∃ (extra : List Call) (added : List Unstructured),
      (Reconcile c req).2.calls = c.calls ++ extra ∧
      (Reconcile c req).2.objects = c.objects ++ added ∧
      (∀ u, Call.create u ∈ extra → GetControllerOf u = some (controllerRef group)) ∧
      (∀ u, u ∈ added → GetControllerOf u = some (controllerRef group)) := by
  rw [reconcile_eq_runSteps c req group hg]
  obtain ⟨extra, added, h1, h2, h3, h4⟩ :=
    runSteps_trace group (planSteps group.GroupPolicyTemplates (indexedPlan group)) c
  refine ⟨extra, added, h1, h2, fun u hu => ?_, fun u hu => ?_⟩
  · obtain ⟨s, _, hacc⟩ := h3 u hu
    exact accepted_controller group s u hns hacc
  · obtain ⟨s, _, hacc⟩ := h4 u hu
    exact accepted_controller group s u hns hacc

/-! ## Errors end the pass -/

theorem ensureObject_get_fails (group : Group) (gvk : GroupVersionKind) (obj obj1 : Unstructured)
    (c : Cluster) (e : Err) (hs : SetControllerReference group obj = .ok obj1)
    (hg : c.getError (lookupKey gvk group.Namespace obj1.GetName) = some e)
    (hnf : e.IsNotFound = false) :
    ensureObject group gvk obj c
      = (.error e, c.logged (.get (lookupKey gvk group.Namespace obj1.GetName))) := by
  unfold ensureObject
  simp [hs, Cluster.Get, hg, hnf]

theorem ensureObject_create_fails (group : Group) (gvk : GroupVersionKind)
    (obj obj1 : Unstructured) (c : Cluster) (e0 e : Err)
    (hs : SetControllerReference group obj = .ok obj1)
    (hg : c.getError (lookupKey gvk group.Namespace obj1.GetName) = some e0)
    (hnf : e0.IsNotFound = true)
    (hc : (c.logged (.get (lookupKey gvk group.Namespace obj1.GetName))).createError obj1
      = some e) :
    ensureObject group gvk obj c
      = (.error e, (c.logged (.get (lookupKey gvk group.Namespace obj1.GetName))).logged
          (.create obj1)) := by
  unfold ensureObject
  simp [hs, Cluster.Get, hg, hnf, Cluster.Create, hc]

theorem runSteps_stops (group : Group) (pre post : List Step) (s : Step) (c c1 c2 : Cluster)
    (e : Err) (hpre : runSteps group pre c = (.ok (), c1))
    (hstep : runStep group s c1 = (.error e, c2)) :
    runSteps group (pre ++ s :: post) c = (.error e, c2) := by
  rw [runSteps_append, hpre]
  simp [runSteps, hstep]

/-- C13: when the ensure steps before step `s` have all succeeded, leaving the server in `c1`,
and the get of `s` fails with an error other than not-found, or its create
fails, `Reconcile` returns that very error, the failing call is the last one in
the log, and the stored objects are those of `c1`, which extend the objects
stored before the pass. -/
theorem first_failing_call_ends_pass (c : Cluster) (req : Request) (group : Group)
    (pre post : List Step) (s : Step) (c1 : Cluster) (obj obj1 : Unstructured) (e : Err)
    (hg : c.fetchGroup req = .ok group)
    (hsteps : planSteps group.GroupPolicyTemplates (indexedPlan group) = pre ++ s :: post)
    (hpre : runSteps group pre c = (.ok (), c1))
    (hobj : s.object group = some obj) (hset : SetControllerReference group obj = .ok obj1) :
    (c1.getError (lookupKey s.gvk group.Namespace obj1.GetName) = some e →
      e.IsNotFound = false →
      Reconcile c req
        = (.error e, c1.logged (.get (lookupKey s.gvk group.Namespace obj1.GetName)))) ∧
    (∀ e0 : Err, c1.getError (lookupKey s.gvk group.Namespace obj1.GetName) = some e0 →
      e0.IsNotFound = true →
      (c1.logged (.get (lookupKey s.gvk group.Namespace obj1.GetName))).createError obj1
        = some e →
      Reconcile c req
        = (.error e, (c1.logged (.get (lookupKey s.gvk group.Namespace obj1.GetName))).logged
            (.create obj1))) ∧
    (∃ added : List Unstructured, c1.objects = c.objects ++ added) ∧
    (∀ call1 call2 : Call, (c1.logged call1).objects = c1.objects ∧
      ((c1.logged call1).logged call2).objects = c1.objects) := by
  rw [reconcile_eq_runSteps c req group hg, hsteps]
  refine ⟨fun hge hnf => ?_, fun e0 hge hnf hce => ?_, ?_, fun _ _ => ⟨rfl, rfl⟩⟩
  · apply runSteps_stops group pre post s c c1 _ e hpre
    rw [runStep_eq, hobj]
    exact ensureObject_get_fails group s.gvk obj obj1 c1 e hset hge hnf
  · apply runSteps_stops group pre post s c c1 _ e hpre
    rw [runStep_eq, hobj]
    exact ensureObject_create_fails group s.gvk obj obj1 c1 e0 e hset hge hnf hce
  · obtain ⟨_, added, _, h2, _⟩ := runSteps_trace group pre c
    rw [hpre] at h2
    exact ⟨added, h2⟩

/-! ## The store after a pass without injected errors -/

theorem good_accepted (group : Group) (s : Step) (h : s.Good group) :
    ∃ obj obj1 : Unstructured, s.object group = some obj ∧
      SetControllerReference group obj = .ok obj1 ∧ s.accepted group = some obj1 ∧
      obj1.key = s.key group ∧ s.key group = lookupKey s.gvk group.Namespace obj1.GetName := by
  obtain ⟨obj, obj1, ho, hs, hk⟩ := h
  exact ⟨obj, obj1, ho, hs, by simp [Step.accepted, ho, hs], hk, good_key group s obj obj1 ho hs⟩

theorem runStep_settle (group : Group) (s : Step) (c : Cluster) (hgood : s.Good group)
    (hf : c.FaultFree) :
    (runStep group s c).1 = .ok () ∧
    (runStep group s c).2.objects = settleStep group c.objects s := by
  obtain ⟨obj, obj1, ho, hs, hacc, hk, hkey⟩ := good_accepted group s hgood
  rw [runStep_eq, ho]
  simp only
  by_cases hh : c.holds (lookupKey s.gvk group.Namespace obj1.GetName) = true
  · obtain ⟨h1, _, _, h4⟩ := ensureObject_faultFree group s.gvk obj obj1 c hs (hkey ▸ hk) hf
    refine ⟨h1, ?_⟩
    rw [(h4 hh).1]
    simp only [settleStep, hkey]
    simp only [Cluster.holds] at hh
    simp [hh]
  · have hh2 : c.holds (lookupKey s.gvk group.Namespace obj1.GetName) = false := by
      simpa using hh
    obtain ⟨h1, h2, _⟩ :=
      ensureObject_faultFree_creates group s.gvk obj obj1 c hs (hkey ▸ hk) hf hh2
    refine ⟨h1, ?_⟩
    rw [h2]
    simp only [settleStep, hkey, hacc]
    simp only [Cluster.holds] at hh2
    simp [hh2]

theorem runSteps_settle (group : Group) (steps : List Step) :
    ∀ c : Cluster, (∀ s ∈ steps, s.Good group) → c.FaultFree →
      (runSteps group steps c).1 = .ok () ∧
      (runSteps group steps c).2.objects = settle group steps c.objects := by
  induction steps with
  | nil => intro c _ _; exact ⟨rfl, rfl⟩
  | cons s steps ih =>
    intro c hgood hf
    obtain ⟨h1, h2⟩ := runStep_settle group s c (hgood s (List.mem_cons_self _ _)) hf
    have hsame := (runStep_bound group s c).2.2
    simp only [runSteps, settle, List.foldl_cons]
    rcases hr : runStep group s c with ⟨r, c1⟩
    rw [hr] at h1 h2 hsame
    simp only at h1 h2 hsame
    subst h1
    simp only
    obtain ⟨i1, i2⟩ := ih c1 (fun s hs => hgood s (List.mem_cons_of_mem _ hs))
      (faultFree_of_sameServer hsame hf)
    exact ⟨i1, by rw [i2, h2]; rfl⟩

theorem settleStep_mem_mono (group : Group) (objs : List Unstructured) (s : Step)
    (u : Unstructured) (h : u ∈ objs) : u ∈ settleStep group objs s := by
  unfold settleStep
  split
  · exact h
  · split
    · exact List.mem_append_left _ h
    · exact h

theorem settleStep_any_mono (group : Group) (objs : List Unstructured) (s : Step)
    (k : ResourceKey) (h : objs.any (fun o => o.key = k) = true) :
    (settleStep group objs s).any (fun o => o.key = k) = true := by
  rw [List.any_eq_true] at h ⊢
  obtain ⟨u, hu, hk⟩ := h
  exact ⟨u, settleStep_mem_mono group objs s u hu, hk⟩

theorem settleStep_cases (group : Group) (objs : List Unstructured) (s : Step) (u : Unstructured)
    (h : u ∈ settleStep group objs s) :
    u ∈ objs ∨ (s.accepted group = some u ∧ objs.any (fun o => o.key = s.key group) = false) := by
  unfold settleStep at h
  split at h
  · exact Or.inl h
  · rename_i hh
    split at h
    · rename_i v hv
      rcases List.mem_append.1 h with h | h
      · exact Or.inl h
      · simp only [List.mem_singleton] at h
        subst h
        exact Or.inr ⟨hv, by simpa using hh⟩
    · exact Or.inl h

theorem settleStep_holds (group : Group) (objs : List Unstructured) (s : Step)
    (hgood : s.Good group) :
    (settleStep group objs s).any (fun o => o.key = s.key group) = true := by
  obtain ⟨obj, obj1, _, _, hacc, hk, _⟩ := good_accepted group s hgood
  unfold settleStep
  split
  · assumption
  · simp [hacc, hk]

theorem settleStep_unique (group : Group) (objs : List Unstructured) (s : Step)
    (hgood : s.Good group) (h : UniqueKeys objs) : UniqueKeys (settleStep group objs s) := by
  obtain ⟨obj, obj1, _, _, hacc, hk, _⟩ := good_accepted group s hgood
  unfold settleStep
  split
  · exact h
  · rename_i hh
    simp only [hacc, UniqueKeys, List.map_append, List.map_cons, List.map_nil]
    unfold UniqueKeys at h
    rw [List.nodup_append]
    refine ⟨h, List.nodup_singleton _, ?_⟩
    intro k hk1 hk2
    simp only [List.mem_singleton] at hk2
    subst hk2
    apply hh
    rw [List.any_eq_true]
    obtain ⟨o, ho, hok⟩ := List.mem_map.1 hk1
    exact ⟨o, ho, by simp [hok, hk]⟩

theorem setField_ownerReferences_mapGet (u : Unstructured) (v : Value) (k : String)
    (hk : k ≠ "metadata") :
    mapGet (u.setField v ["metadata", "ownerReferences"]).object k = mapGet u.object k := by
  cases hm : mapGet u.object "metadata" with
  | none => simp [Unstructured.setField, setNestedField, hm, mapGet_mapSet_ne, hk]
  | some w =>
    cases w <;> simp [Unstructured.setField, setNestedField, hm, mapGet_mapSet_ne, hk]

theorem SetControllerReference_mapGet (group : Group) (u u1 : Unstructured) (k : String)
    (hk : k ≠ "metadata") (h : SetControllerReference group u = .ok u1) :
    mapGet u1.object k = mapGet u.object k := by
  unfold SetControllerReference at h
  split at h
  · cases h
  · simp only at h
    split at h
    · split at h
      · cases h; exact setField_ownerReferences_mapGet u _ k hk
      · cases h
    · cases h; exact setField_ownerReferences_mapGet u _ k hk

theorem accepted_kind (group : Group) (s : Step) (u : Unstructured) (hgood : s.Good group)
    (h : s.accepted group = some u) : u.GetKind = s.gvk.kind := by
  obtain ⟨obj, obj1, _, _, hacc, hk, hkey⟩ := good_accepted group s hgood
  rw [hacc] at h
  cases h
  have := congrArg ResourceKey.Kind (hk.trans hkey)
  simpa [Unstructured.key, lookupKey] using this

theorem binding_step_key (group : Group) (b : Int) (o : Object) :
    (Step.binding b ⟨some o⟩).key group = bindingKey group b := rfl

theorem binding_accepted_subjects (group : Group) (b : Int) (o : Object) (u : Unstructured)
    (h : (Step.binding b ⟨some o⟩).accepted group = some u) :
    subjectRefs u = [("Policy", policyName group b (Unstructured.GetName ⟨o⟩))] := by
  unfold Step.accepted at h
  simp only [Step.object, newPlacementBinding] at h
  split at h
  · rename_i obj1 hs
    cases h
    have := SetControllerReference_mapGet group _ _ "subjects" (by decide) hs
    unfold subjectRefs
    rw [this]
    rfl
  · cases h

theorem settle_append (group : Group) (xs ys : List Step) (objs : List Unstructured) :
    settle group (xs ++ ys) objs = settle group ys (settle group xs objs) := by
  simp [settle, List.foldl_append]

theorem settle_cons (group : Group) (s : Step) (steps : List Step) (objs : List Unstructured) :
    settle group (s :: steps) objs = settle group steps (settleStep group objs s) := rfl

theorem settle_any_mono (group : Group) (steps : List Step) :
    ∀ (objs : List Unstructured) (k : ResourceKey), objs.any (fun o => o.key = k) = true →
      (settle group steps objs).any (fun o => o.key = k) = true := by
  induction steps with
  | nil => intro objs k h; exact h
  | cons s steps ih =>
    intro objs k h
    rw [settle_cons]
    exact ih _ k (settleStep_any_mono group objs s k h)

theorem settleStep_of_held (group : Group) (objs : List Unstructured) (s : Step)
    (h : objs.any (fun o => o.key = s.key group) = true) : settleStep group objs s = objs := by
  unfold settleStep
  rw [if_pos h]

theorem bindingsNameFirst_step (group : Group) (plan : List (Int × List String)) (first : String)
    (objs : List Unstructured) (s : Step) (h : BindingsNameFirst group plan first objs)
    (hs : ∀ u, s.accepted group = some u →
      objs.any (fun o => o.key = s.key group) = false →
      u.GetKind = placementBindingGVK.kind →
      ∃ b sites, (b, sites) ∈ plan ∧ u.key = bindingKey group b ∧
        subjectRefs u = [("Policy", policyName group b first)]) :
    BindingsNameFirst group plan first (settleStep group objs s) := by
  intro u hu hkind
  rcases settleStep_cases group objs s u hu with h1 | ⟨h1, h2⟩
  · exact h u h1 hkind
  · exact hs u h1 h2 hkind

theorem wellFormed_some (t : GroupPolicyTemplate) (h : wellFormedTemplate t = true) :
    ∃ o, t = ⟨some o⟩ := by
  obtain ⟨od⟩ := t
  cases od with
  | none => simp [wellFormedTemplate] at h
  | some o => exact ⟨o, rfl⟩

/-- Once the binding of a batch is held, the later templates of the batch add Policies only. -/
theorem settle_later_templates (group : Group) (plan : List (Int × List String)) (first : String)
    (b : Int) (rest : List GroupPolicyTemplate) :
    ∀ objs : List Unstructured, (∀ t ∈ rest, wellFormedTemplate t = true) →
      objs.any (fun o => o.key = bindingKey group b) = true →
      UniqueKeys objs → BindingsNameFirst group plan first objs →
      UniqueKeys (settle group (templateSteps b rest) objs) ∧
      BindingsNameFirst group plan first (settle group (templateSteps b rest) objs) := by
  induction rest with
  | nil => intro objs _ _ hu hb; exact ⟨hu, hb⟩
  | cons t rest ih =>
    intro objs hwf hheld hu hb
    have ht := hwf t (List.mem_cons_self _ _)
    obtain ⟨o, rfl⟩ := wellFormed_some t ht
    have hgp := policy_step_good group b ⟨some o⟩ ht
    simp only [templateSteps, settle_cons]
    have hheld1 := settleStep_any_mono group objs (.policy b ⟨some o⟩) _ hheld
    have hbind : settleStep group (settleStep group objs (.policy b ⟨some o⟩))
        (.binding b ⟨some o⟩) = settleStep group objs (.policy b ⟨some o⟩) :=
      settleStep_of_held group _ _ (by rw [binding_step_key]; exact hheld1)
    rw [hbind]
    refine ih _ (fun t1 h1 => hwf t1 (List.mem_cons_of_mem _ h1)) hheld1
      (settleStep_unique group objs _ hgp hu) ?_
    apply bindingsNameFirst_step group plan first objs _ hb
    intro u hacc _ hkind
    have := accepted_kind group _ u hgp hacc
    rw [this] at hkind
    simp [Step.gvk, policyGVK, placementRuleGVK, placementBindingGVK] at hkind

theorem settle_batch (group : Group) (plan : List (Int × List String)) (b : Int)
    (sites : List String) (o : Object) (rest : List GroupPolicyTemplate)
    (objs : List Unstructured) (hmem : (b, sites) ∈ plan)
    (hwf1 : wellFormedTemplate ⟨some o⟩ = true) (hwf : ∀ t ∈ rest, wellFormedTemplate t = true)
    (hu : UniqueKeys objs)
    (hb : BindingsNameFirst group plan (Unstructured.GetName ⟨o⟩) objs) :
    UniqueKeys (settle group (.rule b sites :: templateSteps b (⟨some o⟩ :: rest)) objs) ∧
    BindingsNameFirst group plan (Unstructured.GetName ⟨o⟩)
      (settle group (.rule b sites :: templateSteps b (⟨some o⟩ :: rest)) objs) ∧
    (settle group (.rule b sites :: templateSteps b (⟨some o⟩ :: rest)) objs).any
      (fun u => u.key = bindingKey group b) = true := by
  have hgr := rule_step_good group b sites
  have hgp := policy_step_good group b ⟨some o⟩ hwf1
  have hgb := binding_step_good group b o
  simp only [templateSteps, settle_cons]
  -- the three stores after the rule, the first policy and the first binding
  have hu1 := settleStep_unique group objs _ hgr hu
  have hb1 : BindingsNameFirst group plan (Unstructured.GetName ⟨o⟩)
      (settleStep group objs (.rule b sites)) := by
    apply bindingsNameFirst_step group plan _ objs _ hb
    intro u hacc _ hkind
    have := accepted_kind group _ u hgr hacc
    rw [this] at hkind
    simp [Step.gvk, policyGVK, placementRuleGVK, placementBindingGVK] at hkind
  have hu2 := settleStep_unique group _ (.policy b ⟨some o⟩) hgp hu1
  have hb2 : BindingsNameFirst group plan (Unstructured.GetName ⟨o⟩)
      (settleStep group (settleStep group objs (.rule b sites)) (.policy b ⟨some o⟩)) := by
    apply bindingsNameFirst_step group plan _ _ _ hb1
    intro u hacc _ hkind
    have := accepted_kind group _ u hgp hacc
    rw [this] at hkind
    simp [Step.gvk, policyGVK, placementRuleGVK, placementBindingGVK] at hkind
  have hu3 := settleStep_unique group _ (.binding b ⟨some o⟩) hgb hu2
  have hb3 : BindingsNameFirst group plan (Unstructured.GetName ⟨o⟩)
      (settleStep group (settleStep group (settleStep group objs (.rule b sites))
        (.policy b ⟨some o⟩)) (.binding b ⟨some o⟩)) := by
    apply bindingsNameFirst_step group plan _ _ _ hb2
    intro u hacc _ _
    obtain ⟨obj, obj1, _, _, hacc1, hk, _⟩ := good_accepted group _ hgb
    refine ⟨b, sites, hmem, ?_, binding_accepted_subjects group b o u hacc⟩
    rw [hacc1] at hacc
    cases hacc
    rw [hk, binding_step_key]
  have hheld := settleStep_holds group
    (settleStep group (settleStep group objs (.rule b sites)) (.policy b ⟨some o⟩))
    (.binding b ⟨some o⟩) hgb
  rw [binding_step_key] at hheld
  obtain ⟨r1, r2⟩ := settle_later_templates group plan _ b rest _ hwf hheld hu3 hb3
  exact ⟨r1, r2, settle_any_mono group _ _ _ hheld⟩

theorem settle_plan (group : Group) (plan : List (Int × List String)) (o : Object)
    (rest : List GroupPolicyTemplate) (hwf1 : wellFormedTemplate ⟨some o⟩ = true)
    (hwf : ∀ t ∈ rest, wellFormedTemplate t = true) :
    ∀ (ps : List (Int × List String)) (objs : List Unstructured), (∀ p ∈ ps, p ∈ plan) →
      UniqueKeys objs → BindingsNameFirst group plan (Unstructured.GetName ⟨o⟩) objs →
      UniqueKeys (settle group (planSteps (⟨some o⟩ :: rest) ps) objs) ∧
      BindingsNameFirst group plan (Unstructured.GetName ⟨o⟩)
        (settle group (planSteps (⟨some o⟩ :: rest) ps) objs) ∧
      ∀ p ∈ ps, (settle group (planSteps (⟨some o⟩ :: rest) ps) objs).any
        (fun u => u.key = bindingKey group p.1) = true := by
  intro ps
  induction ps with
  | nil => intro objs _ hu hb; exact ⟨hu, hb, fun p hp => by simp at hp⟩
  | cons p ps ih =>
    obtain ⟨b, sites⟩ := p
    intro objs hsub hu hb
    obtain ⟨u1, b1, held1⟩ := settle_batch group plan b sites o rest objs
      (hsub _ (List.mem_cons_self _ _)) hwf1 hwf hu hb
    obtain ⟨u2, b2, held2⟩ := ih _ (fun q hq => hsub q (List.mem_cons_of_mem _ hq)) u1 b1
    simp only [planSteps]
    rw [settle_append]
    refine ⟨u2, b2, fun q hq => ?_⟩
    rcases List.mem_cons.1 hq with rfl | hq
    · exact settle_any_mono group _ _ _ held1
    · exact held2 q hq

theorem countP_key_of_unique : ∀ (objs : List Unstructured) (k : ResourceKey),
    UniqueKeys objs → objs.any (fun o => o.key = k) = true →
    objs.countP (fun o => o.key = k) = 1 := by
  intro objs
  induction objs with
  | nil => intro k _ h; simp at h
  | cons u objs ih =>
    intro k hu h
    unfold UniqueKeys at hu
    simp only [List.map_cons, List.nodup_cons] at hu
    by_cases hk : u.key = k
    · have hnone : objs.countP (fun o => decide (o.key = k)) = 0 := by
        rw [List.countP_eq_zero]
        intro o ho hok
        apply hu.1
        rw [hk]
        exact List.mem_map.2 ⟨o, ho, by simpa using hok⟩
      simp [List.countP_cons, hk, hnone]
    · have h2 : objs.any (fun o => o.key = k) = true := by
        simpa [List.any_cons, hk] using h
      simp [List.countP_cons, hk, ih k hu.2 h2]

theorem indexedPlan_pos (group : Group) (b : Int) (sites : List String)
    (h : (b, sites) ∈ indexedPlan group) : 1 ≤ b := by
  simp only [indexedPlan, List.mem_map] at h
  obtain ⟨p, _, hp⟩ := h
  cases hp
  omega

theorem mem_templateSteps_policy (b : Int) (ts : List GroupPolicyTemplate)
    (t : GroupPolicyTemplate) (h : t ∈ ts) : Step.policy b t ∈ templateSteps b ts := by
  induction ts with
  | nil => simp at h
  | cons t1 ts ih =>
    simp only [templateSteps, List.mem_cons]
    rcases List.mem_cons.1 h with rfl | h
    · exact Or.inl rfl
    · exact Or.inr (Or.inr (ih h))

theorem mem_planSteps_policy (ts : List GroupPolicyTemplate) (plan : List (Int × List String))
    (b : Int) (sites : List String) (t : GroupPolicyTemplate) (h : (b, sites) ∈ plan)
    (ht : t ∈ ts) : Step.policy b t ∈ planSteps ts plan := by
  induction plan with
  | nil => simp at h
  | cons p plan ih =>
    obtain ⟨b1, s1⟩ := p
    simp only [planSteps, List.cons_append, List.mem_cons, List.mem_append]
    rcases List.mem_cons.1 h with h1 | h1
    · cases h1; exact Or.inr (Or.inl (mem_templateSteps_policy b ts t ht))
    · exact Or.inr (Or.inr (ih h1))

theorem policy_object_some (group : Group) (b : Int) (t : GroupPolicyTemplate) (p : Unstructured)
    (h : (Step.policy b t).object group = some p) : newPolicy group b t = .ok (some p) := by
  simp only [Step.object] at h
  cases hn : newPolicy group b t with
  | ok r =>
    cases r with
    | none => simp [hn] at h
    | some q => simp only [hn, Option.some.injEq] at h; rw [h]
  | error e => simp [hn] at h
  | panic => simp [hn] at h

theorem policy_step_key (group : Group) (b : Int) (t : GroupPolicyTemplate)
    (h : wellFormedTemplate t = true) :
    (Step.policy b t).key group = policyKey group b (templateName t) := by
  obtain ⟨o, rfl⟩ := wellFormed_some t h
  obtain ⟨p, p1, hobj, _, _⟩ := policy_step_good group b ⟨some o⟩ h
  have hmd : metadataWritable o = true := by
    simp only [wellFormedTemplate, Bool.and_eq_true] at h
    exact h.1.1.1.1
  have hp := policy_object_some group b _ p hobj
  simp only [Step.key, hobj, policyKey, templateName, Step.gvk]
  rw [newPolicy_GetName group b o p hmd hp]

/-- C18: for a Group with at least two well-formed templates of distinct names, on a server that
injects no error and holds no object, one `Reconcile` pass succeeds and then
every planned batch has exactly one PlacementBinding in the store, every stored
PlacementBinding is the binding of a planned batch and has the Policy of the
first template as its single subject, and the Policy of every later template
is held by the server but is a subject of no stored PlacementBinding. -/
theorem later_policies_left_unbound (c : Cluster) (req : Request) (group : Group)
    (t1 t2 : GroupPolicyTemplate) (rest : List GroupPolicyTemplate)
    (hg : c.fetchGroup req = .ok group)
    (htpl : group.GroupPolicyTemplates = t1 :: t2 :: rest)
    (hwf : ∀ t ∈ group.GroupPolicyTemplates, wellFormedTemplate t = true)
    (hnames : (group.GroupPolicyTemplates.map templateName).Nodup)
    (hf : c.FaultFree) (hempty : c.objects = []) :
    (Reconcile c req).1 = .ok () ∧
    (∀ b sites, (b, sites) ∈ indexedPlan group →
      (Reconcile c req).2.objects.countP (fun u => u.key = bindingKey group b) = 1) ∧
    (∀ u ∈ (Reconcile c req).2.objects, u.GetKind = "PlacementBinding" →
      ∃ b sites, (b, sites) ∈ indexedPlan group ∧ u.key = bindingKey group b ∧
        subjectRefs u = [("Policy", policyName group b (templateName t1))]) ∧
    (∀ b sites t, (b, sites) ∈ indexedPlan group → t ∈ t2 :: rest →
      (Reconcile c req).2.holds (policyKey group b (templateName t)) = true ∧
      ∀ u ∈ (Reconcile c req).2.objects, u.GetKind = "PlacementBinding" →
        ("Policy", policyName group b (templateName t)) ∉ subjectRefs u) := by
  have hgood := planSteps_good group group.GroupPolicyTemplates (indexedPlan group) hwf
  obtain ⟨hok, hobjs⟩ := runSteps_settle group _ c hgood hf
  obtain ⟨_, _, hheldAll⟩ := runSteps_faultFree group _ c hgood hf
  rw [reconcile_eq_runSteps c req group hg]
  have hwf1 : wellFormedTemplate t1 = true := hwf t1 (by rw [htpl]; exact List.mem_cons_self _ _)
  obtain ⟨o, rfl⟩ := wellFormed_some t1 hwf1
  have hwfr : ∀ t ∈ t2 :: rest, wellFormedTemplate t = true :=
    fun t ht => hwf t (by rw [htpl]; exact List.mem_cons_of_mem _ ht)
  obtain ⟨hu, hb, hheld⟩ := settle_plan group (indexedPlan group) o (t2 :: rest) hwf1 hwfr
    (indexedPlan group) [] (fun p hp => hp) (by simp [UniqueKeys])
    (by intro u hu; simp at hu)
  rw [hobjs, hempty, htpl]
  rw [htpl] at hok
  have hC : ∀ u ∈ settle group (planSteps (⟨some o⟩ :: t2 :: rest) (indexedPlan group)) [],
      u.GetKind = "PlacementBinding" →
      ∃ b sites, (b, sites) ∈ indexedPlan group ∧ u.key = bindingKey group b ∧
        subjectRefs u = [("Policy", policyName group b (templateName ⟨some o⟩))] :=
    fun u hu1 hk => hb u hu1 hk
  refine ⟨hok, fun b sites hmem => ?_, hC, fun b sites t hmem ht => ⟨?_, fun u hu1 hk hsub => ?_⟩⟩
  · exact countP_key_of_unique _ _ hu (hheld (b, sites) hmem)
  · have hstep := hheldAll _ (mem_planSteps_policy group.GroupPolicyTemplates _ b sites t hmem
      (by rw [htpl]; exact List.mem_cons_of_mem _ ht))
    rw [policy_step_key group b t (hwfr t ht), htpl] at hstep
    exact hstep
  · obtain ⟨b1, sites1, hmem1, _, hsubj⟩ := hC u hu1 hk
    rw [hsubj] at hsub
    simp only [List.mem_singleton, Prod.mk.injEq, true_and] at hsub
    obtain ⟨_, hn⟩ := policyName_inj_same_group group group b b1 _ _ rfl
      (indexedPlan_pos group b sites hmem) (indexedPlan_pos group b1 sites1 hmem1) hsub
    rw [htpl] at hnames
    simp only [List.map_cons, List.nodup_cons] at hnames
    apply hnames.1
    rw [← hn]
    rcases List.mem_cons.1 ht with rfl | ht
    · exact List.mem_cons_self _ _
    · exact List.mem_cons_of_mem _ (List.mem_map.2 ⟨t, ht, rfl⟩)

/-- C11 (as stated, refuted): the server holds the Policy `grp-batch-1-pt1-policy`, yet
`ensurePolicy` returns an error for a template whose raw definition already
names another controller: `SetControllerReference` refuses it before the
store is consulted. -/
theorem ensurePolicy_refuses_owned_template :
    (sampleCluster [sampleStoredPolicy "grp-batch-1-pt1-policy"]
      (sampleGroup ["c1"] "Parallel" [sampleOwnedTemplate])).holds
      (lookupKey policyGVK "ns" "grp-batch-1-pt1-policy") = true ∧
    policyInstanceName (sampleGroup ["c1"] "Parallel" [sampleOwnedTemplate]) 1 sampleOwnedTemplate
      = some "grp-batch-1-pt1-policy" ∧
    (ensurePolicy (sampleGroup ["c1"] "Parallel" [sampleOwnedTemplate]) 1 sampleOwnedTemplate
      (sampleCluster [sampleStoredPolicy "grp-batch-1-pt1-policy"]
        (sampleGroup ["c1"] "Parallel" [sampleOwnedTemplate]))).1.errorOf = some .alreadyOwned ∧
    (ensurePolicy (sampleGroup ["c1"] "Parallel" [sampleOwnedTemplate]) 1 sampleOwnedTemplate
      (sampleCluster [sampleStoredPolicy "grp-batch-1-pt1-policy"]
        (sampleGroup ["c1"] "Parallel" [sampleOwnedTemplate]))).1.isOk = false := by
  decide

/-- C11 (amended), at a stored Policy `grp-batch-1-pt1-policy` that enforces and has no owner:
`ensurePolicy` succeeds and only logs its get. -/
theorem ensure_leaves_existing_witness :
    (sampleCluster [sampleStoredPolicy "grp-batch-1-pt1-policy"]
      (sampleGroup ["c1"] "Parallel" [sampleTemplate "pt1"])).holds
      (lookupKey policyGVK "ns" "grp-batch-1-pt1-policy") = true ∧
    ensurePolicy (sampleGroup ["c1"] "Parallel" [sampleTemplate "pt1"]) 1 (sampleTemplate "pt1")
      (sampleCluster [sampleStoredPolicy "grp-batch-1-pt1-policy"]
        (sampleGroup ["c1"] "Parallel" [sampleTemplate "pt1"]))
      = (.ok (), (sampleCluster [sampleStoredPolicy "grp-batch-1-pt1-policy"]
          (sampleGroup ["c1"] "Parallel" [sampleTemplate "pt1"])).logged
          (.get (lookupKey policyGVK "ns" "grp-batch-1-pt1-policy"))) := by
  refine ⟨by decide, ?_⟩
  obtain ⟨pol, pol1, hobj, hset, _⟩ :=
    policy_step_good (sampleGroup ["c1"] "Parallel" [sampleTemplate "pt1"]) 1
      (sampleTemplate "pt1") (by decide)
  have hp := policy_object_some _ 1 _ pol hobj
  have hn : pol.GetName = "grp-batch-1-pt1-policy" := by
    rw [newPolicy_GetName _ 1 (sampleObject "pt1") pol (by decide) hp]
    decide
  have h := (ensure_leaves_existing (sampleGroup ["c1"] "Parallel" [sampleTemplate "pt1"]) 1
    ["c1"] (sampleTemplate "pt1")
    (sampleCluster [sampleStoredPolicy "grp-batch-1-pt1-policy"]
      (sampleGroup ["c1"] "Parallel" [sampleTemplate "pt1"]))).2.2.1 pol pol1 hp hset
  rw [hn] at h
  exact h (by decide) rfl

/-- C12, at two sites taken one at a time with one template on an empty server. -/
theorem created_resources_are_owned_witness :
    (sampleCluster [] (sampleGroup ["c1", "c2"] "Serial" [sampleTemplate "pt1"])).fetchGroup
      ⟨"ns", "grp"⟩ = .ok (sampleGroup ["c1", "c2"] "Serial" [sampleTemplate "pt1"]) ∧
    (sampleGroup ["c1", "c2"] "Serial" [sampleTemplate "pt1"]).Namespace ≠ "" ∧
    (Reconcile (sampleCluster [] (sampleGroup ["c1", "c2"] "Serial" [sampleTemplate "pt1"]))
      ⟨"ns", "grp"⟩).2.creates = 6 ∧
    ∃ (extra : List Call) (added : List Unstructured),
      (Reconcile (sampleCluster [] (sampleGroup ["c1", "c2"] "Serial" [sampleTemplate "pt1"]))
        ⟨"ns", "grp"⟩).2.calls
        = (sampleCluster [] (sampleGroup ["c1", "c2"] "Serial" [sampleTemplate "pt1"])).calls
          ++ extra ∧
      (Reconcile (sampleCluster [] (sampleGroup ["c1", "c2"] "Serial" [sampleTemplate "pt1"]))
        ⟨"ns", "grp"⟩).2.objects
        = (sampleCluster [] (sampleGroup ["c1", "c2"] "Serial" [sampleTemplate "pt1"])).objects
          ++ added ∧
      (∀ u, Call.create u ∈ extra → GetControllerOf u
        = some (controllerRef (sampleGroup ["c1", "c2"] "Serial" [sampleTemplate "pt1"]))) ∧
      (∀ u, u ∈ added → GetControllerOf u
        = some (controllerRef (sampleGroup ["c1", "c2"] "Serial" [sampleTemplate "pt1"]))) :=
  ⟨rfl, by decide, by decide,
    created_resources_are_owned
      (sampleCluster [] (sampleGroup ["c1", "c2"] "Serial" [sampleTemplate "pt1"])) ⟨"ns", "grp"⟩
      (sampleGroup ["c1", "c2"] "Serial" [sampleTemplate "pt1"]) rfl (by decide)⟩

/-- C13, at a server that answers the get of `grp-batch-2-placement-rule` with a server error:
the pass returns it after get, create, get, with the rule of batch 1 stored. -/
theorem first_failing_call_ends_pass_witness :
    (Reconcile (sampleFaultyCluster [] (sampleGroup ["c1", "c2"] "Serial" [])
      "grp-batch-2-placement-rule" (.server 500)) ⟨"ns", "grp"⟩).1.errorOf
      = some (.server 500) ∧
    (Reconcile (sampleFaultyCluster [] (sampleGroup ["c1", "c2"] "Serial" [])
      "grp-batch-2-placement-rule" (.server 500)) ⟨"ns", "grp"⟩).2.objects.map
      Unstructured.GetName = ["grp-batch-1-placement-rule"] ∧
    (Reconcile (sampleFaultyCluster [] (sampleGroup ["c1", "c2"] "Serial" [])
      "grp-batch-2-placement-rule" (.server 500)) ⟨"ns", "grp"⟩).2.calls.map Call.isCreate
      = [false, true, false] := by
  obtain ⟨obj, obj1, hobj, hset, _⟩ :=
    rule_step_good (sampleGroup ["c1", "c2"] "Serial" []) 2 ["c2"]
  have hn : obj1.GetName = "grp-batch-2-placement-rule" := by
    rw [SetControllerReference_GetName _ _ _ hset]
    simp only [Step.object, Option.some.injEq] at hobj
    rw [← hobj]
    decide
  have h := (first_failing_call_ends_pass
    (sampleFaultyCluster [] (sampleGroup ["c1", "c2"] "Serial" [])
      "grp-batch-2-placement-rule" (.server 500))
    ⟨"ns", "grp"⟩ (sampleGroup ["c1", "c2"] "Serial" [])
    [.rule 1 ["c1"]] [] (.rule 2 ["c2"])
    (runSteps (sampleGroup ["c1", "c2"] "Serial" []) [.rule 1 ["c1"]]
      (sampleFaultyCluster [] (sampleGroup ["c1", "c2"] "Serial" [])
        "grp-batch-2-placement-rule" (.server 500))).2
    obj obj1 (.server 500) rfl rfl rfl hobj hset).1
    (by rw [hn]; decide) rfl
  rw [h, hn]
  exact ⟨rfl, by decide, by decide⟩

/-- C14 (as stated, refuted): for the parseable template without a name `newPolicy` returns an
instance named `grp-batch-1--policy`, and `ensurePolicy` creates it on an
empty server and returns success. -/
theorem nameless_template_gets_policy :
    templateName sampleNamelessTemplate = "" ∧
    policyInstanceName (sampleGroup ["c1"] "Parallel" [sampleNamelessTemplate]) 1
      sampleNamelessTemplate = some "grp-batch-1--policy" ∧
    (ensurePolicy (sampleGroup ["c1"] "Parallel" [sampleNamelessTemplate]) 1
      sampleNamelessTemplate
      (sampleCluster [] (sampleGroup ["c1"] "Parallel" [sampleNamelessTemplate]))).1.isOk = true ∧
    (ensurePolicy (sampleGroup ["c1"] "Parallel" [sampleNamelessTemplate]) 1
      sampleNamelessTemplate
      (sampleCluster [] (sampleGroup ["c1"] "Parallel" [sampleNamelessTemplate]))).2.objects.map
      Unstructured.GetName = ["grp-batch-1--policy"] := by
  decide

/-- C14 (amended), at the nameless template in batch 1 of the Group `grp`. -/
theorem nameless_template_is_materialised_witness :
    wellFormedTemplate sampleNamelessTemplate = true ∧
    templateName sampleNamelessTemplate = "" ∧
    (sampleCluster [] (sampleGroup ["c1"] "Parallel" [sampleNamelessTemplate])).FaultFree ∧
    ∃ p p1 : Unstructured,
      newPolicy (sampleGroup ["c1"] "Parallel" [sampleNamelessTemplate]) 1 sampleNamelessTemplate
        = .ok (some p) ∧
      p.GetName = "grp-batch-1--policy" ∧
      (ensurePolicy (sampleGroup ["c1"] "Parallel" [sampleNamelessTemplate]) 1
        sampleNamelessTemplate
        (sampleCluster [] (sampleGroup ["c1"] "Parallel" [sampleNamelessTemplate]))).2.objects
        = [] ++ [p1] := by
  refine ⟨by decide, by decide, ⟨fun _ _ => rfl, fun _ _ => rfl⟩, ?_⟩
  obtain ⟨p, p1, hp, hn, _, _, hobjs⟩ :=
    nameless_template_is_materialised (sampleGroup ["c1"] "Parallel" [sampleNamelessTemplate]) 1
      sampleNamelessObject
      (sampleCluster [] (sampleGroup ["c1"] "Parallel" [sampleNamelessTemplate]))
      (by decide) (by decide) ⟨fun _ _ => rfl, fun _ _ => rfl⟩ (by decide)
  refine ⟨p, p1, hp, ?_, hobjs⟩
  rw [hn]
  decide

/-- C15 (as stated, refuted): with the strategy type `Canary` the two sites are planned one per
batch, `Reconcile` returns success without any error, and both PlacementRules
are created. -/
theorem unknown_strategy_is_not_rejected :
    (sampleGroup ["c1", "c2"] "Canary" []).UpgradeStrategyType ≠ "Parallel" ∧
    upgradePlan (sampleGroup ["c1", "c2"] "Canary" []) = [["c1"], ["c2"]] ∧
    (Reconcile (sampleCluster [] (sampleGroup ["c1", "c2"] "Canary" [])) ⟨"ns", "grp"⟩).1.isOk
      = true ∧
    (Reconcile (sampleCluster [] (sampleGroup ["c1", "c2"] "Canary" [])) ⟨"ns", "grp"⟩).1.errorOf
      = none ∧
    (Reconcile (sampleCluster [] (sampleGroup ["c1", "c2"] "Canary" []))
      ⟨"ns", "grp"⟩).2.objects.map Unstructured.GetName
      = ["grp-batch-1-placement-rule", "grp-batch-2-placement-rule"] := by
  decide

/-- C15 (amended), at two sites with the strategy type `Canary`. -/
theorem unrecognised_strategy_is_sequential_witness :
    (sampleCluster [] (sampleGroup ["c1", "c2"] "Canary" [sampleTemplate "pt1"])).fetchGroup
      ⟨"ns", "grp"⟩ = .ok (sampleGroup ["c1", "c2"] "Canary" [sampleTemplate "pt1"]) ∧
    (sampleGroup ["c1", "c2"] "Canary" [sampleTemplate "pt1"]).UpgradeStrategyType ≠ "Parallel" ∧
    upgradePlan (sampleGroup ["c1", "c2"] "Canary" [sampleTemplate "pt1"]) = [["c1"], ["c2"]] ∧
    (Reconcile (sampleCluster [] (sampleGroup ["c1", "c2"] "Canary" [sampleTemplate "pt1"]))
      ⟨"ns", "grp"⟩).1 = .ok () :=
  have h := unrecognised_strategy_is_sequential
    (sampleCluster [] (sampleGroup ["c1", "c2"] "Canary" [sampleTemplate "pt1"])) ⟨"ns", "grp"⟩
    (sampleGroup ["c1", "c2"] "Canary" [sampleTemplate "pt1"]) rfl (by decide)
    (by
      intro t ht
      simp only [sampleGroup, List.mem_singleton] at ht
      subst ht
      decide)
    ⟨fun _ _ => rfl, fun _ _ => rfl⟩
  ⟨rfl, by decide, h.1, h.2.1⟩

/-- C17, at the template `pt1` without a `spec`. -/
theorem newPolicy_panics_without_spec_map_witness :
    sampleNoSpecTemplate.ObjectDefinition.map specIsMap = some false ∧
    newPolicy (sampleGroup ["c1"] "Parallel" [sampleNoSpecTemplate]) 1 sampleNoSpecTemplate
      = .panic ∧
    (ensurePolicy (sampleGroup ["c1"] "Parallel" [sampleNoSpecTemplate]) 1 sampleNoSpecTemplate
      (sampleCluster [] (sampleGroup ["c1"] "Parallel" [sampleNoSpecTemplate]))).2.calls = [] :=
  have h := newPolicy_panics_without_spec_map
    (sampleGroup ["c1"] "Parallel" [sampleNoSpecTemplate]) 1
    sampleNoSpecObject (by decide)
  ⟨by decide, h.1,
    congrArg (fun r => r.2.calls)
      (h.2 (sampleCluster [] (sampleGroup ["c1"] "Parallel" [sampleNoSpecTemplate])))⟩

/-- C19, at batch 1 with template `1-x` against batch 11 with template `x`: the names
`grp-batch-1-1-x-policy` and `grp-batch-11-x-policy` can only be equal if the
pairs are. -/
theorem policy_instance_name_injective_witness :
    (1 : Int) ≤ 1 ∧ (1 : Int) ≤ 11 ∧
    policyName (sampleGroup ["c1"] "Parallel" []) 1 "1-x" = "grp-batch-1-1-x-policy" ∧
    policyName (sampleGroup ["c1"] "Parallel" []) 11 "x" = "grp-batch-11-x-policy" ∧
    ("grp" ++ "-batch-" ++ Itoa 1 ++ "-" ++ "1-x" ++ "-policy"
      = "grp" ++ "-batch-" ++ Itoa 11 ++ "-" ++ "x" ++ "-policy" →
      (1 : Int) = 11 ∧ ("1-x" : String) = "x") :=
  ⟨by decide, by decide, by decide, by decide,
    (policy_instance_name_injective (sampleGroup ["c1"] "Parallel" []) 1 11
      (by decide) (by decide)).1 "1-x" "x"⟩

/-- C18, at two sites taken one at a time with the templates `pt1` and `pt2`. -/
theorem later_policies_left_unbound_witness :
    (sampleCluster [] (sampleGroup ["c1", "c2"] "Serial"
      [sampleTemplate "pt1", sampleTemplate "pt2"])).fetchGroup ⟨"ns", "grp"⟩
      = .ok (sampleGroup ["c1", "c2"] "Serial" [sampleTemplate "pt1", sampleTemplate "pt2"]) ∧
    ((sampleGroup ["c1", "c2"] "Serial"
      [sampleTemplate "pt1", sampleTemplate "pt2"]).GroupPolicyTemplates.map templateName)
      = ["pt1", "pt2"] ∧
    (Reconcile (sampleCluster [] (sampleGroup ["c1", "c2"] "Serial"
      [sampleTemplate "pt1", sampleTemplate "pt2"])) ⟨"ns", "grp"⟩).2.objects.map
      Unstructured.GetName
      = ["grp-batch-1-placement-rule", "grp-batch-1-pt1-policy", "grp-batch-1-placement-binding",
          "grp-batch-1-pt2-policy", "grp-batch-2-placement-rule", "grp-batch-2-pt1-policy",
          "grp-batch-2-placement-binding", "grp-batch-2-pt2-policy"] ∧
    (Reconcile (sampleCluster [] (sampleGroup ["c1", "c2"] "Serial"
      [sampleTemplate "pt1", sampleTemplate "pt2"])) ⟨"ns", "grp"⟩).2.objects.countP
      (fun u => u.key = bindingKey (sampleGroup ["c1", "c2"] "Serial"
        [sampleTemplate "pt1", sampleTemplate "pt2"]) 2) = 1 ∧
    ∀ u ∈ (Reconcile (sampleCluster [] (sampleGroup ["c1", "c2"] "Serial"
      [sampleTemplate "pt1", sampleTemplate "pt2"])) ⟨"ns", "grp"⟩).2.objects,
      u.GetKind = "PlacementBinding" →
      ("Policy", policyName (sampleGroup ["c1", "c2"] "Serial"
        [sampleTemplate "pt1", sampleTemplate "pt2"]) 2 (templateName (sampleTemplate "pt2")))
        ∉ subjectRefs u :=
  have hwf : ∀ t ∈ (sampleGroup ["c1", "c2"] "Serial"
      [sampleTemplate "pt1", sampleTemplate "pt2"]).GroupPolicyTemplates,
      wellFormedTemplate t = true := by
    intro t ht
    simp only [sampleGroup, List.mem_cons, List.mem_singleton, List.not_mem_nil, or_false] at ht
    rcases ht with rfl | rfl <;> decide
  have h := later_policies_left_unbound
    (sampleCluster [] (sampleGroup ["c1", "c2"] "Serial"
      [sampleTemplate "pt1", sampleTemplate "pt2"]))
    ⟨"ns", "grp"⟩
    (sampleGroup ["c1", "c2"] "Serial" [sampleTemplate "pt1", sampleTemplate "pt2"])
    (sampleTemplate "pt1") (sampleTemplate "pt2") [] rfl rfl hwf (by decide)
    ⟨fun _ _ => rfl, fun _ _ => rfl⟩ rfl
  ⟨rfl, by decide, by decide, h.2.1 2 ["c2"] (by decide),
    (h.2.2.2 2 ["c2"] (sampleTemplate "pt2") (by decide) (List.mem_cons_self _ _)).2⟩

end GroupController
